import Mathlib

/-!
Verification development for the funai-sdk repository: a shallow embedding of
the transaction-construction and wire-serialization core (Clarity value codec,
wire primitive codec, payload model, spending-condition/authorization model,
signing protocol, transaction assembly) together with theorems about the
behaviour of the embedded operations.

Bytes are modelled as `List Nat`, each element a byte value below 256 where the
code produces one.  Machine integers are `Nat`/`Int` with explicit bounds.
Fallible operations return `Option`/`Except`.  The external collaborators
(fee estimation, nonce lookup, cryptographic hash/sign primitives, c32 address
rendering) are modelled as explicit function parameters or as computable
modelling functions, as the spec directs (they are outside the core).
-/

namespace FunaiSdk

/-- Raw bytes, as a list of naturals. -/
abbrev Bytes := List Nat

/-! ## Fixed-width integer byte encodings -/

/-- Big-endian encoding of `n` into exactly `w` bytes (most significant first).
Mirrors the fixed-width unsigned integer writes of the wire codec. -/
def beBytes : Nat → Nat → Bytes
  | 0, _ => []
  | w + 1, n => beBytes w (n / 256) ++ [n % 256]

/-- Big-endian read of a byte list back into a natural number. -/
def ofBeBytes (bs : Bytes) : Nat :=
  bs.foldl (fun acc b => acc * 256 + b) 0

/-- Little-endian encoding of `n` into exactly `w` bytes (least significant
first).  Mirrors the Bitcoin-style varuint payload writes. -/
def leBytes : Nat → Nat → Bytes
  | 0, _ => []
  | w + 1, n => n % 256 :: leBytes w (n / 256)

/-- Little-endian read of a byte list back into a natural number. -/
def ofLeBytes (bs : Bytes) : Nat :=
  bs.foldr (fun b acc => acc * 256 + b) 0

theorem beBytes_length (w n : Nat) : (beBytes w n).length = w := by
  induction w generalizing n with
  | zero => rfl
  | succ w ih => simp [beBytes, ih]

theorem leBytes_length (w n : Nat) : (leBytes w n).length = w := by
  induction w generalizing n with
  | zero => rfl
  | succ w ih => simp [leBytes, ih]

theorem ofBeBytes_append (a b : Bytes) :
    ofBeBytes (a ++ b) = b.foldl (fun acc x => acc * 256 + x) (ofBeBytes a) := by
  simp [ofBeBytes, List.foldl_append]

theorem ofBeBytes_beBytes (w n : Nat) (h : n < 256 ^ w) :
    ofBeBytes (beBytes w n) = n := by
  induction w generalizing n with
  | zero =>
    simp [beBytes, ofBeBytes]
    omega
  | succ w ih =>
    have hdiv : n / 256 < 256 ^ w := by
      rw [Nat.div_lt_iff_lt_mul (by omega : 0 < 256)]
      calc n < 256 ^ (w + 1) := h
        _ = 256 ^ w * 256 := by ring
    rw [beBytes, ofBeBytes_append, ih _ hdiv]
    simp
    omega

theorem ofLeBytes_leBytes (w n : Nat) (h : n < 256 ^ w) :
    ofLeBytes (leBytes w n) = n := by
  induction w generalizing n with
  | zero =>
    simp [leBytes, ofLeBytes]
    omega
  | succ w ih =>
    have hdiv : n / 256 < 256 ^ w := by
      rw [Nat.div_lt_iff_lt_mul (by omega : 0 < 256)]
      calc n < 256 ^ (w + 1) := h
        _ = 256 ^ w * 256 := by ring
    rw [leBytes, ofLeBytes, List.foldr_cons]
    rw [show (leBytes w (n / 256)).foldr (fun b acc => acc * 256 + b) 0
        = ofLeBytes (leBytes w (n / 256)) from rfl, ih _ hdiv]
    omega

/-- Read exactly `k` bytes from the front of the buffer; fails when fewer
remain (the codec's `MalformedLength`-style check). -/
def readN (k : Nat) (bs : Bytes) : Option (Bytes × Bytes) :=
  if k ≤ bs.length then Option.some (bs.take k, bs.drop k) else Option.none

theorem readN_exact (xs rest : Bytes) :
    readN xs.length (xs ++ rest) = Option.some (xs, rest) := by
  simp [readN, List.take_append, List.drop_append]

theorem readN_of_length (k : Nat) (xs rest : Bytes) (h : xs.length = k) :
    readN k (xs ++ rest) = Option.some (xs, rest) := by
  subst h; exact readN_exact xs rest

/-! ## Message encoding (encodeMessage / decodeMessage)

Translated from the repository's message-codec module: `encodeMessage`
concatenates the UTF-8 bytes of a chain prefix, a Bitcoin-style varuint of the
message byte length, and the message bytes; `decodeMessage` drops the prefix
bytes, decodes the varuint, and drops as many bytes as the canonical encoding
of the decoded value occupies.  Strings enter as their UTF-8 byte lists. -/

/-- Modelled from the spec: the Bitcoin-style varuint encoder of the
repository's `varuint` module (not under src/): values below 0xfd take one
byte; otherwise a marker byte 0xfd/0xfe/0xff is followed by a 2/4/8-byte
little-endian payload.  The source asserts values fit a JS safe integer. -/
def varuintEncode (n : Nat) : Bytes :=
  if n < 0xfd then [n]
  else if n ≤ 0xffff then 0xfd :: leBytes 2 n
  else if n ≤ 0xffffffff then 0xfe :: leBytes 4 n
  else 0xff :: leBytes 8 n

/-- Modelled from the spec: the varuint decoder matching `varuintEncode`;
reads the marker byte and the corresponding little-endian payload. -/
def varuintDecode (bs : Bytes) : Option Nat :=
  match bs with
  | [] => Option.none
  | b :: rest =>
    if b < 0xfd then Option.some b
    else if b = 0xfd then (readN 2 rest).map fun p => ofLeBytes p.1
    else if b = 0xfe then (readN 4 rest).map fun p => ofLeBytes p.1
    else (readN 8 rest).map fun p => ofLeBytes p.1

/-- Modelled from the spec: the byte length of the canonical varuint encoding
of `n` (the repository's `encodingLength`). -/
def varuintEncodingLength (n : Nat) : Nat :=
  if n < 0xfd then 1
  else if n ≤ 0xffff then 3
  else if n ≤ 0xffffffff then 5
  else 9

/-- `encodeMessage`: chain prefix bytes, then the varuint of the message byte
length, then the message bytes (from the repository's message codec). -/
def encodeMessage (message : Bytes) (pfx : Bytes) : Bytes :=
  pfx ++ varuintEncode message.length ++ message

/-- `decodeMessage`: drop the prefix bytes, decode the varuint, then drop the
number of bytes the canonical encoding of the decoded value occupies (from the
repository's message codec). -/
def decodeMessage (encodedMessage : Bytes) (pfx : Bytes) : Option Bytes :=
  (varuintDecode (encodedMessage.drop pfx.length)).map fun decoded =>
    (encodedMessage.drop pfx.length).drop (varuintEncodingLength decoded)

theorem varuintEncode_length (n : Nat) :
    (varuintEncode n).length = varuintEncodingLength n := by
  unfold varuintEncode varuintEncodingLength
  split <;> [skip; split <;> [skip; split]] <;> simp [leBytes_length]

theorem varuintDecode_encode (n : Nat) (rest : Bytes) (h : n < 2 ^ 64) :
    varuintDecode (varuintEncode n ++ rest) = Option.some n := by
  unfold varuintEncode
  split
  · next h1 => simp [varuintDecode, h1]
  · next h1 =>
    split
    · next h2 =>
      have : ¬ (0xfd : Nat) < 0xfd := by omega
      simp only [List.cons_append, varuintDecode, this, if_false, if_pos rfl]
      rw [readN_of_length 2 _ rest (leBytes_length 2 n)]
      simp [ofLeBytes_leBytes 2 n (by omega)]
    · next h2 =>
      split
      · next h3 =>
        simp only [List.cons_append, varuintDecode]
        norm_num
        rw [readN_of_length 4 _ rest (leBytes_length 4 n)]
        simp [ofLeBytes_leBytes 4 n (by omega)]
      · next h3 =>
        simp only [List.cons_append, varuintDecode]
        norm_num
        rw [readN_of_length 8 _ rest (leBytes_length 8 n)]
        simp [ofLeBytes_leBytes 8 n (by norm_num at h ⊢; omega)]

/-- C10: for every message (byte list; a string message enters as its UTF-8
bytes) and every prefix (its UTF-8 bytes), decoding the encoding returns
exactly the message's bytes — the prefix and the varuint length header are
removed without loss.  The length bound is the JS safe-integer bound the
varuint encoder asserts. -/
theorem claim_C10_message_roundtrip (message pfx : Bytes)
    (h : message.length < 2 ^ 53) :
    decodeMessage (encodeMessage message pfx) pfx = Option.some message := by
  unfold encodeMessage decodeMessage
  rw [List.append_assoc, List.drop_left]
  rw [varuintDecode_encode message.length _ (by omega)]
  simp only [Option.map_some', Option.some.injEq]
  rw [List.drop_left' ((varuintEncode_length message.length).symm ▸ rfl)]

/-! ## Clarity Value codec

Modelled from the spec (the codec module itself is not under src/; its value
type and one-byte tags are fixed by §4.2 and the wire type declarations that
are under src/): each variant has a one-byte type tag followed by its fields;
integers are fixed 16-byte big-endian (two's complement for the signed kind);
buffers are 4-byte length + bytes; lists are 4-byte count + elements; tuples
are 4-byte count + (1-byte-length-prefixed key, value) pairs in insertion
order; principals are a version byte + 20-byte hash (+ a length-prefixed
contract name for contract principals). -/

/-- A wire address: version byte + 20-byte hash160 (byte-level form used by
the Clarity codec). -/
structure AddressB where
  version : Nat
  hash160 : Bytes

/-- The Clarity value type: a closed tagged union (part_002 shows the
`BoolTrue`/`BoolFalse` tag style; the variant list is §3's data model and the
`ClarityValue`/`PrincipalCV` types referenced by src). -/
inductive CV where
  | intCV (i : Int)
  | uintCV (n : Nat)
  | buffer (bs : Bytes)
  | boolTrue
  | boolFalse
  | standardPrincipal (a : AddressB)
  | contractPrincipal (a : AddressB) (name : Bytes)
  | responseOk (v : CV)
  | responseErr (v : CV)
  | optionNone
  | optionSome (v : CV)
  | listCV (vs : List CV)
  | tupleCV (fs : List (Bytes × CV))

/-- One-byte-length-prefixed short string (as used for tuple keys and contract
names; max length 128 per the chain's identifier limits). -/
def encodeLpStr1 (s : Bytes) : Bytes := s.length :: s

/-- Read a single byte from the front of the buffer. -/
def readByte : Bytes → Option (Nat × Bytes)
  | [] => Option.none
  | b :: rest => Option.some (b, rest)

theorem readByte_cons (b : Nat) (bs : Bytes) :
    readByte (b :: bs) = Option.some (b, bs) := rfl

/-- Decode a one-byte-length-prefixed short string. -/
def decodeLpStr1 (bs : Bytes) : Option (Bytes × Bytes) :=
  (readByte bs).bind fun l => readN l.1 l.2

theorem decodeLpStr1_encode (s rest : Bytes) :
    decodeLpStr1 (encodeLpStr1 s ++ rest) = Option.some (s, rest) := by
  simp [encodeLpStr1, decodeLpStr1, readByte_cons, readN_exact]

/-- Well-formedness of a byte-level address: version fits a byte, hash is
exactly 20 bytes. -/
def wfAddressB (a : AddressB) : Bool :=
  decide (a.version < 256) && decide (a.hash160.length = 20)
    && a.hash160.all (fun b => decide (b < 256))

/-- Well-formedness of a short identifier string (≤ 128 bytes). -/
def wfLpStr1 (s : Bytes) : Bool :=
  decide (s.length ≤ 128) && s.all (fun b => decide (b < 256))

mutual

/-- Well-formedness of a Clarity value: the bounds the source enforces at
construction time (128-bit integer range, 32-bit lengths, identifier limits,
byte ranges). -/
def wfCV : CV → Bool
  | .intCV i => decide (-(2 ^ 127) ≤ i) && decide (i < 2 ^ 127)
  | .uintCV n => decide (n < 2 ^ 128)
  | .buffer bs => decide (bs.length < 2 ^ 32) && bs.all (fun b => decide (b < 256))
  | .boolTrue => true
  | .boolFalse => true
  | .standardPrincipal a => wfAddressB a
  | .contractPrincipal a name => wfAddressB a && wfLpStr1 name
  | .responseOk v => wfCV v
  | .responseErr v => wfCV v
  | .optionNone => true
  | .optionSome v => wfCV v
  | .listCV vs => decide (vs.length < 2 ^ 32) && wfCVList vs
  | .tupleCV fs => decide (fs.length < 2 ^ 32) && wfCVEntries fs

/-- Well-formedness of a list of Clarity values. -/
def wfCVList : List CV → Bool
  | [] => true
  | v :: vs => wfCV v && wfCVList vs

/-- Well-formedness of tuple entries (key then value). -/
def wfCVEntries : List (Bytes × CV) → Bool
  | [] => true
  | (k, v) :: fs => wfLpStr1 k && wfCV v && wfCVEntries fs

end

mutual

/-- Nesting depth of a Clarity value (the decoder fuel a value needs). -/
def depthCV : CV → Nat
  | .responseOk v => depthCV v + 1
  | .responseErr v => depthCV v + 1
  | .optionSome v => depthCV v + 1
  | .listCV vs => depthCVList vs + 1
  | .tupleCV fs => depthCVEntries fs + 1
  | _ => 1

/-- Maximum depth across a list of Clarity values. -/
def depthCVList : List CV → Nat
  | [] => 0
  | v :: vs => max (depthCV v) (depthCVList vs)

/-- Maximum depth across tuple entries. -/
def depthCVEntries : List (Bytes × CV) → Nat
  | [] => 0
  | (_, v) :: fs => max (depthCV v) (depthCVEntries fs)

end

mutual

/-- Encode a Clarity value: one-byte tag, then the variant's fields (§4.2). -/
def encodeCV : CV → Bytes
  | .intCV i => 0 :: beBytes 16 (i % (2 ^ 128)).toNat
  | .uintCV n => 1 :: beBytes 16 n
  | .buffer bs => 2 :: (beBytes 4 bs.length ++ bs)
  | .boolTrue => [3]
  | .boolFalse => [4]
  | .standardPrincipal a => 5 :: a.version :: a.hash160
  | .contractPrincipal a name => 6 :: a.version :: (a.hash160 ++ encodeLpStr1 name)
  | .responseOk v => 7 :: encodeCV v
  | .responseErr v => 8 :: encodeCV v
  | .optionNone => [9]
  | .optionSome v => 10 :: encodeCV v
  | .listCV vs => 11 :: (beBytes 4 vs.length ++ encodeCVList vs)
  | .tupleCV fs => 12 :: (beBytes 4 fs.length ++ encodeCVEntries fs)

/-- Encode a sequence of Clarity values back to back. -/
def encodeCVList : List CV → Bytes
  | [] => []
  | v :: vs => encodeCV v ++ encodeCVList vs

/-- Encode tuple entries back to back (length-prefixed key, then value). -/
def encodeCVEntries : List (Bytes × CV) → Bytes
  | [] => []
  | (k, v) :: fs => encodeLpStr1 k ++ encodeCV v ++ encodeCVEntries fs

end

mutual

/-- Decode a Clarity value from the front of a buffer, returning the value and
the unconsumed tail.  `fuel` bounds the nesting depth; an unknown tag fails
(the `UnknownClarityType` error). -/
def decodeCV : Nat → Bytes → Option (CV × Bytes)
  | 0, _ => Option.none
  | fuel + 1, bs =>
    (readByte bs).bind fun tb =>
      let t := tb.1
      let rest := tb.2
      if t = 0 then
        (readN 16 rest).map fun p =>
          (.intCV (if ofBeBytes p.1 < 2 ^ 127 then (ofBeBytes p.1 : Int)
            else (ofBeBytes p.1 : Int) - 2 ^ 128), p.2)
      else if t = 1 then
        (readN 16 rest).map fun p => (.uintCV (ofBeBytes p.1), p.2)
      else if t = 2 then
        (readN 4 rest).bind fun q =>
          (readN (ofBeBytes q.1) q.2).map fun p => (.buffer p.1, p.2)
      else if t = 3 then Option.some (.boolTrue, rest)
      else if t = 4 then Option.some (.boolFalse, rest)
      else if t = 5 then
        (readByte rest).bind fun vb =>
          (readN 20 vb.2).map fun p => (.standardPrincipal ⟨vb.1, p.1⟩, p.2)
      else if t = 6 then
        (readByte rest).bind fun vb =>
          (readN 20 vb.2).bind fun hb =>
            (decodeLpStr1 hb.2).map fun p =>
              (.contractPrincipal ⟨vb.1, hb.1⟩ p.1, p.2)
      else if t = 7 then (decodeCV fuel rest).map fun p => (.responseOk p.1, p.2)
      else if t = 8 then (decodeCV fuel rest).map fun p => (.responseErr p.1, p.2)
      else if t = 9 then Option.some (.optionNone, rest)
      else if t = 10 then (decodeCV fuel rest).map fun p => (.optionSome p.1, p.2)
      else if t = 11 then
        (readN 4 rest).bind fun q =>
          (decodeCVList fuel (ofBeBytes q.1) q.2).map fun p => (.listCV p.1, p.2)
      else if t = 12 then
        (readN 4 rest).bind fun q =>
          (decodeCVEntries fuel (ofBeBytes q.1) q.2).map fun p => (.tupleCV p.1, p.2)
      else Option.none
termination_by fuel _ => (fuel, 0)

/-- Decode exactly `k` consecutive Clarity values. -/
def decodeCVList : Nat → Nat → Bytes → Option (List CV × Bytes)
  | _, 0, bs => Option.some ([], bs)
  | fuel, k + 1, bs =>
    (decodeCV fuel bs).bind fun q =>
      (decodeCVList fuel k q.2).map fun p => (q.1 :: p.1, p.2)
termination_by fuel k _ => (fuel, k + 1)

/-- Decode exactly `k` consecutive tuple entries. -/
def decodeCVEntries : Nat → Nat → Bytes → Option (List (Bytes × CV) × Bytes)
  | _, 0, bs => Option.some ([], bs)
  | fuel, k + 1, bs =>
    (decodeLpStr1 bs).bind fun kb =>
      (decodeCV fuel kb.2).bind fun vb =>
        (decodeCVEntries fuel k vb.2).map fun p => ((kb.1, vb.1) :: p.1, p.2)
termination_by fuel k _ => (fuel, k + 1)

end

theorem pow256_16_eq : (256 : Nat) ^ 16 = 2 ^ 128 := by norm_num

theorem pow256_4_eq : (256 : Nat) ^ 4 = 2 ^ 32 := by norm_num

theorem lt_pow256_16 {n : Nat} (h : n < 2 ^ 128) : n < 256 ^ 16 := by
  rw [pow256_16_eq]; exact h

theorem lt_pow256_4 {n : Nat} (h : n < 2 ^ 32) : n < 256 ^ 4 := by
  rw [pow256_4_eq]; exact h

set_option maxRecDepth 4000 in
theorem intMod_toNat_lt (i : Int) : (i % (2 ^ 128)).toNat < 2 ^ 128 := by
  have h1 : 0 ≤ i % (2 ^ 128) := Int.emod_nonneg i (by positivity)
  have h2 : i % (2 ^ 128) < 2 ^ 128 := Int.emod_lt_of_pos i (by positivity)
  omega

set_option maxRecDepth 4000 in
/-- Decoding the 16-byte two's-complement form of an in-range signed 128-bit
integer recovers the integer. -/
theorem int128_roundtrip (i : Int) (h1 : -(2 ^ 127) ≤ i) (h2 : i < 2 ^ 127) :
    (if (i % (2 ^ 128)).toNat < 2 ^ 127 then ((i % (2 ^ 128)).toNat : Int)
      else ((i % (2 ^ 128)).toNat : Int) - 2 ^ 128) = i := by
  rcases le_or_lt 0 i with hpos | hneg
  · have hv : i % (2 ^ 128) = i := Int.emod_eq_of_lt hpos (by omega)
    rw [hv, if_pos (by omega)]
    omega
  · have hv : i % (2 ^ 128) = i + 2 ^ 128 := by
      have hself := Int.add_mul_emod_self_left (a := i) (b := 2 ^ 128) (c := 1)
      rw [mul_one] at hself
      rw [← hself]
      exact Int.emod_eq_of_lt (by omega) (by omega)
    rw [hv, if_neg (by omega)]
    omega

theorem decodeCV_tag0 (fuel : Nat) (bs : Bytes) :
    decodeCV (fuel + 1) (0 :: bs) = (readN 16 bs).map fun p =>
      (.intCV (if ofBeBytes p.1 < 2 ^ 127 then (ofBeBytes p.1 : Int)
        else (ofBeBytes p.1 : Int) - 2 ^ 128), p.2) := by
  unfold decodeCV; norm_num [readByte_cons]

theorem decodeCV_tag1 (fuel : Nat) (bs : Bytes) :
    decodeCV (fuel + 1) (1 :: bs) =
      (readN 16 bs).map fun p => (.uintCV (ofBeBytes p.1), p.2) := by
  unfold decodeCV; norm_num [readByte_cons]

theorem decodeCV_tag2 (fuel : Nat) (bs : Bytes) :
    decodeCV (fuel + 1) (2 :: bs) =
      (readN 4 bs).bind fun q =>
        (readN (ofBeBytes q.1) q.2).map fun p => (.buffer p.1, p.2) := by
  unfold decodeCV; norm_num [readByte_cons]

theorem decodeCV_tag3 (fuel : Nat) (bs : Bytes) :
    decodeCV (fuel + 1) (3 :: bs) = Option.some (.boolTrue, bs) := by
  unfold decodeCV; norm_num [readByte_cons]

theorem decodeCV_tag4 (fuel : Nat) (bs : Bytes) :
    decodeCV (fuel + 1) (4 :: bs) = Option.some (.boolFalse, bs) := by
  unfold decodeCV; norm_num [readByte_cons]

theorem decodeCV_tag5 (fuel : Nat) (bs : Bytes) :
    decodeCV (fuel + 1) (5 :: bs) =
      (readByte bs).bind fun vb =>
        (readN 20 vb.2).map fun p => (.standardPrincipal ⟨vb.1, p.1⟩, p.2) := by
  unfold decodeCV; norm_num [readByte_cons]

theorem decodeCV_tag6 (fuel : Nat) (bs : Bytes) :
    decodeCV (fuel + 1) (6 :: bs) =
      (readByte bs).bind fun vb =>
        (readN 20 vb.2).bind fun hb =>
          (decodeLpStr1 hb.2).map fun p =>
            (.contractPrincipal ⟨vb.1, hb.1⟩ p.1, p.2) := by
  unfold decodeCV; norm_num [readByte_cons]

theorem decodeCV_tag7 (fuel : Nat) (bs : Bytes) :
    decodeCV (fuel + 1) (7 :: bs) =
      (decodeCV fuel bs).map fun p => (.responseOk p.1, p.2) := by
  conv_lhs => unfold decodeCV
  norm_num [readByte_cons]

theorem decodeCV_tag8 (fuel : Nat) (bs : Bytes) :
    decodeCV (fuel + 1) (8 :: bs) =
      (decodeCV fuel bs).map fun p => (.responseErr p.1, p.2) := by
  conv_lhs => unfold decodeCV
  norm_num [readByte_cons]

theorem decodeCV_tag9 (fuel : Nat) (bs : Bytes) :
    decodeCV (fuel + 1) (9 :: bs) = Option.some (.optionNone, bs) := by
  unfold decodeCV; norm_num [readByte_cons]

theorem decodeCV_tag10 (fuel : Nat) (bs : Bytes) :
    decodeCV (fuel + 1) (10 :: bs) =
      (decodeCV fuel bs).map fun p => (.optionSome p.1, p.2) := by
  conv_lhs => unfold decodeCV
  norm_num [readByte_cons]

theorem decodeCV_tag11 (fuel : Nat) (bs : Bytes) :
    decodeCV (fuel + 1) (11 :: bs) =
      (readN 4 bs).bind fun q =>
        (decodeCVList fuel (ofBeBytes q.1) q.2).map fun p => (.listCV p.1, p.2) := by
  unfold decodeCV; norm_num [readByte_cons]

theorem decodeCV_tag12 (fuel : Nat) (bs : Bytes) :
    decodeCV (fuel + 1) (12 :: bs) =
      (readN 4 bs).bind fun q =>
        (decodeCVEntries fuel (ofBeBytes q.1) q.2).map fun p => (.tupleCV p.1, p.2) := by
  unfold decodeCV; norm_num [readByte_cons]

theorem decodeCVList_succ (fuel k : Nat) (bs : Bytes) :
    decodeCVList fuel (k + 1) bs =
      (decodeCV fuel bs).bind fun q =>
        (decodeCVList fuel k q.2).map fun p => (q.1 :: p.1, p.2) := by
  conv_lhs => unfold decodeCVList

theorem decodeCVEntries_succ (fuel k : Nat) (bs : Bytes) :
    decodeCVEntries fuel (k + 1) bs =
      (decodeLpStr1 bs).bind fun kb =>
        (decodeCV fuel kb.2).bind fun vb =>
          (decodeCVEntries fuel k vb.2).map fun p => ((kb.1, vb.1) :: p.1, p.2) := by
  conv_lhs => unfold decodeCVEntries

/-- Auxiliary: sequences of Clarity values round-trip element by element,
given the round-trip property for each element at the same fuel. -/
theorem decodeCVList_encodeCVList (fuel : Nat)
    (IH : ∀ v rest, wfCV v = true → depthCV v ≤ fuel →
      decodeCV fuel (encodeCV v ++ rest) = Option.some (v, rest)) :
    ∀ (vs : List CV) (rest : Bytes), wfCVList vs = true → depthCVList vs ≤ fuel →
      decodeCVList fuel vs.length (encodeCVList vs ++ rest) = Option.some (vs, rest) := by
  intro vs
  induction vs with
  | nil => intro rest _ _; simp [encodeCVList, decodeCVList]
  | cons v vs ih =>
    intro rest hwf hd
    rw [wfCVList, Bool.and_eq_true] at hwf
    rw [depthCVList] at hd
    rw [List.length_cons, encodeCVList, List.append_assoc, decodeCVList_succ]
    rw [IH v _ hwf.1 (le_trans (le_max_left _ _) hd)]
    simp only [Option.some_bind]
    rw [ih _ hwf.2 (le_trans (le_max_right _ _) hd)]
    rfl

/-- Auxiliary: sequences of tuple entries round-trip entry by entry. -/
theorem decodeCVEntries_encodeCVEntries (fuel : Nat)
    (IH : ∀ v rest, wfCV v = true → depthCV v ≤ fuel →
      decodeCV fuel (encodeCV v ++ rest) = Option.some (v, rest)) :
    ∀ (fs : List (Bytes × CV)) (rest : Bytes), wfCVEntries fs = true →
      depthCVEntries fs ≤ fuel →
      decodeCVEntries fuel fs.length (encodeCVEntries fs ++ rest) =
        Option.some (fs, rest) := by
  intro fs
  induction fs with
  | nil => intro rest _ _; simp [encodeCVEntries, decodeCVEntries]
  | cons f fs ih =>
    obtain ⟨k, v⟩ := f
    intro rest hwf hd
    rw [wfCVEntries, Bool.and_eq_true, Bool.and_eq_true] at hwf
    rw [depthCVEntries] at hd
    rw [List.length_cons, encodeCVEntries, List.append_assoc, List.append_assoc,
      decodeCVEntries_succ, decodeLpStr1_encode]
    simp only [Option.some_bind]
    rw [IH v _ hwf.1.2 (le_trans (le_max_left _ _) hd)]
    simp only [Option.some_bind]
    rw [ih _ hwf.2 (le_trans (le_max_right _ _) hd)]
    rfl

/-- The Clarity-value round trip: decoding the encoding of any well-formed
value (nested to any depth the fuel covers) returns the value and the
untouched tail. -/
theorem decodeCV_encodeCV : ∀ (fuel : Nat) (v : CV) (rest : Bytes),
    wfCV v = true → depthCV v ≤ fuel →
    decodeCV fuel (encodeCV v ++ rest) = Option.some (v, rest) := by
  intro fuel
  induction fuel with
  | zero =>
    intro v rest _ hd
    exfalso
    cases v <;> simp [depthCV] at hd
  | succ fuel ih =>
    intro v rest hwf hd
    cases v with
    | intCV i =>
      rw [wfCV, Bool.and_eq_true, decide_eq_true_eq, decide_eq_true_eq] at hwf
      rw [encodeCV, List.cons_append, decodeCV_tag0]
      rw [readN_of_length 16 _ rest (beBytes_length 16 _)]
      simp only [Option.map_some']
      rw [ofBeBytes_beBytes 16 _ (lt_pow256_16 (intMod_toNat_lt i))]
      rw [int128_roundtrip i hwf.1 hwf.2]
    | uintCV n =>
      rw [wfCV, decide_eq_true_eq] at hwf
      rw [encodeCV, List.cons_append, decodeCV_tag1]
      rw [readN_of_length 16 _ rest (beBytes_length 16 _)]
      simp only [Option.map_some']
      rw [ofBeBytes_beBytes 16 _ (lt_pow256_16 hwf)]
    | buffer bs =>
      rw [wfCV, Bool.and_eq_true, decide_eq_true_eq] at hwf
      rw [encodeCV, List.cons_append, List.append_assoc, decodeCV_tag2]
      rw [readN_of_length 4 _ _ (beBytes_length 4 _)]
      simp only [Option.some_bind]
      rw [ofBeBytes_beBytes 4 _ (lt_pow256_4 hwf.1)]
      rw [readN_of_length bs.length bs rest rfl]
      rfl
    | boolTrue =>
      rw [encodeCV, List.cons_append, List.nil_append, decodeCV_tag3]
    | boolFalse =>
      rw [encodeCV, List.cons_append, List.nil_append, decodeCV_tag4]
    | standardPrincipal a =>
      rw [wfCV, wfAddressB, Bool.and_eq_true, Bool.and_eq_true,
        decide_eq_true_eq, decide_eq_true_eq] at hwf
      rw [encodeCV, List.cons_append, List.cons_append, decodeCV_tag5,
        readByte_cons]
      simp only [Option.some_bind]
      rw [readN_of_length 20 _ rest hwf.1.2]
      rfl
    | contractPrincipal a name =>
      rw [wfCV, Bool.and_eq_true, wfAddressB, Bool.and_eq_true, Bool.and_eq_true,
        decide_eq_true_eq, decide_eq_true_eq] at hwf
      rw [encodeCV, List.cons_append, List.cons_append, List.append_assoc,
        decodeCV_tag6, readByte_cons]
      simp only [Option.some_bind]
      rw [readN_of_length 20 _ _ hwf.1.1.2]
      simp only [Option.some_bind]
      rw [decodeLpStr1_encode]
      rfl
    | responseOk v =>
      rw [wfCV] at hwf
      rw [depthCV] at hd
      rw [encodeCV, List.cons_append, decodeCV_tag7]
      rw [ih v rest hwf (by omega)]
      rfl
    | responseErr v =>
      rw [wfCV] at hwf
      rw [depthCV] at hd
      rw [encodeCV, List.cons_append, decodeCV_tag8]
      rw [ih v rest hwf (by omega)]
      rfl
    | optionNone =>
      rw [encodeCV, List.cons_append, List.nil_append, decodeCV_tag9]
    | optionSome v =>
      rw [wfCV] at hwf
      rw [depthCV] at hd
      rw [encodeCV, List.cons_append, decodeCV_tag10]
      rw [ih v rest hwf (by omega)]
      rfl
    | listCV vs =>
      rw [wfCV, Bool.and_eq_true, decide_eq_true_eq] at hwf
      rw [depthCV] at hd
      rw [encodeCV, List.cons_append, List.append_assoc, decodeCV_tag11]
      rw [readN_of_length 4 _ _ (beBytes_length 4 _)]
      simp only [Option.some_bind]
      rw [ofBeBytes_beBytes 4 _ (lt_pow256_4 hwf.1)]
      rw [decodeCVList_encodeCVList fuel ih vs rest hwf.2 (by omega)]
      rfl
    | tupleCV fs =>
      rw [wfCV, Bool.and_eq_true, decide_eq_true_eq] at hwf
      rw [depthCV] at hd
      rw [encodeCV, List.cons_append, List.append_assoc, decodeCV_tag12]
      rw [readN_of_length 4 _ _ (beBytes_length 4 _)]
      simp only [Option.some_bind]
      rw [ofBeBytes_beBytes 4 _ (lt_pow256_4 hwf.1)]
      rw [decodeCVEntries_encodeCVEntries fuel ih fs rest hwf.2 (by omega)]
      rfl

/-! ## Wire primitive codec

Modelled from the spec (§3/§4.1; the codec module is not under src/, its wire
type declarations are): fixed-width address (version byte + 20-byte hash),
length-prefixed string (declared prefix width and maximum, enforced on encode
and decode), 34-byte zero-padded memo field, public key (33-byte compressed or
65-byte uncompressed, discriminated by the leading byte), 65-byte recoverable
message signature, and length-prefixed list of sub-wires with configurable
prefix width.  Wire primitives are not self-tagged: each use-site declares the
expected shape, so decoding is directed by a `WireExpect` value. -/

/-- The shape a use-site declares when decoding a wire primitive. -/
inductive WireExpect where
  | address
  | lpString (widthBytes maxLen : Nat)
  | memo
  | publicKey
  | msgSig
  | lpList (widthBytes : Nat) (elem : WireExpect)

/-- A wire primitive value. -/
inductive WirePrim where
  | address (a : AddressB)
  | lpString (widthBytes maxLen : Nat) (content : Bytes)
  | memo (content : Bytes)
  | publicKey (data : Bytes)
  | msgSig (data : Bytes)
  | lpList (widthBytes : Nat) (items : List WirePrim)

/-- Remove the zero-byte padding a fixed-width memo field carries. -/
def stripTrailingZeros (bs : Bytes) : Bytes :=
  (bs.reverse.dropWhile (fun b => b == 0)).reverse

mutual

/-- Encode a wire primitive (§4.1 byte layout). -/
def encodeW : WirePrim → Bytes
  | .address a => a.version :: a.hash160
  | .lpString w _ c => beBytes w c.length ++ c
  | .memo c => c ++ List.replicate (34 - c.length) 0
  | .publicKey d => d
  | .msgSig d => d
  | .lpList w items => beBytes w items.length ++ encodeWList items

/-- Encode a sequence of wire primitives back to back. -/
def encodeWList : List WirePrim → Bytes
  | [] => []
  | p :: ps => encodeW p ++ encodeWList ps

end

mutual

/-- Well-formedness of a wire primitive against its declared shape: the
construction-time checks (declared widths match, content within the declared
maximum, fixed lengths exact, bytes in range, memo in canonical unpadded
form). -/
def wfW : WireExpect → WirePrim → Bool
  | .address, .address a => wfAddressB a
  | .lpString w maxLen, .lpString w2 m2 c =>
    decide (w2 = w) && decide (m2 = maxLen) && decide (c.length ≤ maxLen) &&
      decide (c.length < 256 ^ w) && c.all (fun b => decide (b < 256))
  | .memo, .memo c =>
    decide (c.length ≤ 34) && decide (c.getLastD 1 ≠ 0) &&
      c.all (fun b => decide (b < 256))
  | .publicKey, .publicKey d =>
    ((decide (d.length = 33) &&
        (decide (d.head? = Option.some 2) || decide (d.head? = Option.some 3))) ||
      (decide (d.length = 65) && decide (d.head? = Option.some 4))) &&
      d.all (fun b => decide (b < 256))
  | .msgSig, .msgSig d => decide (d.length = 65) && d.all (fun b => decide (b < 256))
  | .lpList w elem, .lpList w2 items =>
    decide (w2 = w) && decide (items.length < 256 ^ w) && wfWList elem items
  | _, _ => false

/-- Well-formedness of a homogeneous wire list. -/
def wfWList : WireExpect → List WirePrim → Bool
  | _, [] => true
  | e, p :: ps => wfW e p && wfWList e ps

end

mutual

/-- Nesting depth of a wire primitive (decoder fuel). -/
def depthW : WirePrim → Nat
  | .lpList _ items => depthWList items + 1
  | _ => 1

/-- Maximum depth across a wire list. -/
def depthWList : List WirePrim → Nat
  | [] => 0
  | p :: ps => max (depthW p) (depthWList ps)

end

mutual

/-- Decode a wire primitive of the declared shape from the front of a buffer,
returning the primitive and the unconsumed tail (§4.1: a declared length that
exceeds the remaining buffer, or a string longer than the declared maximum,
fails). -/
def decodeW : Nat → WireExpect → Bytes → Option (WirePrim × Bytes)
  | 0, _, _ => Option.none
  | fuel + 1, e, bs =>
    match e with
    | .address =>
      (readByte bs).bind fun vb =>
        (readN 20 vb.2).map fun p => (.address ⟨vb.1, p.1⟩, p.2)
    | .lpString w maxLen =>
      (readN w bs).bind fun q =>
        if ofBeBytes q.1 ≤ maxLen then
          (readN (ofBeBytes q.1) q.2).map fun p => (.lpString w maxLen p.1, p.2)
        else Option.none
    | .memo =>
      (readN 34 bs).map fun p => (.memo (stripTrailingZeros p.1), p.2)
    | .publicKey =>
      (readByte bs).bind fun hb =>
        (readN (if hb.1 = 4 then 65 else 33) bs).map fun p => (.publicKey p.1, p.2)
    | .msgSig =>
      (readN 65 bs).map fun p => (.msgSig p.1, p.2)
    | .lpList w elem =>
      (readN w bs).bind fun q =>
        (decodeWList fuel (ofBeBytes q.1) elem q.2).map fun p => (.lpList w p.1, p.2)
termination_by fuel _ _ => (fuel, 0)

/-- Decode exactly `k` consecutive wire primitives of the same shape. -/
def decodeWList : Nat → Nat → WireExpect → Bytes → Option (List WirePrim × Bytes)
  | _, 0, _, bs => Option.some ([], bs)
  | fuel, k + 1, e, bs =>
    (decodeW fuel e bs).bind fun q =>
      (decodeWList fuel k e q.2).map fun p => (q.1 :: p.1, p.2)
termination_by fuel k _ _ => (fuel, k + 1)

end

theorem dropWhile_zeros (k : Nat) (l : Bytes) :
    (List.replicate k 0 ++ l).dropWhile (fun b => b == 0) =
      l.dropWhile (fun b => b == 0) := by
  induction k with
  | zero => simp
  | succ k ih => simp [List.replicate_succ, List.dropWhile_cons, ih]

/-- Stripping the zero padding from a padded canonical memo recovers the
content. -/
theorem stripTrailingZeros_pad (c : Bytes) (k : Nat) (h : c.getLastD 1 ≠ 0) :
    stripTrailingZeros (c ++ List.replicate k 0) = c := by
  unfold stripTrailingZeros
  rw [List.reverse_append, List.reverse_replicate, dropWhile_zeros]
  have hself : c.reverse.dropWhile (fun b => b == 0) = c.reverse := by
    match hc : c.reverse with
    | [] => rfl
    | x :: t =>
      have hx : c.getLastD 1 = x := by
        rw [List.getLastD_eq_getLast?, ← List.head?_reverse, hc]
        rfl
      have hx0 : x ≠ 0 := fun h0 => h (by rw [hx, h0])
      rw [List.dropWhile_cons, if_neg (by simp [hx0])]
  rw [hself, List.reverse_reverse]

theorem decodeW_address (fuel : Nat) (bs : Bytes) :
    decodeW (fuel + 1) .address bs =
      (readByte bs).bind fun vb =>
        (readN 20 vb.2).map fun p => (.address ⟨vb.1, p.1⟩, p.2) := by
  conv_lhs => unfold decodeW

theorem decodeW_lpString (fuel w maxLen : Nat) (bs : Bytes) :
    decodeW (fuel + 1) (.lpString w maxLen) bs =
      (readN w bs).bind fun q =>
        if ofBeBytes q.1 ≤ maxLen then
          (readN (ofBeBytes q.1) q.2).map fun p => (.lpString w maxLen p.1, p.2)
        else Option.none := by
  conv_lhs => unfold decodeW

theorem decodeW_memo (fuel : Nat) (bs : Bytes) :
    decodeW (fuel + 1) .memo bs =
      (readN 34 bs).map fun p => (.memo (stripTrailingZeros p.1), p.2) := by
  conv_lhs => unfold decodeW

theorem decodeW_publicKey (fuel : Nat) (bs : Bytes) :
    decodeW (fuel + 1) .publicKey bs =
      (readByte bs).bind fun hb =>
        (readN (if hb.1 = 4 then 65 else 33) bs).map fun p => (.publicKey p.1, p.2) := by
  conv_lhs => unfold decodeW

theorem decodeW_msgSig (fuel : Nat) (bs : Bytes) :
    decodeW (fuel + 1) .msgSig bs =
      (readN 65 bs).map fun p => (.msgSig p.1, p.2) := by
  conv_lhs => unfold decodeW

theorem decodeW_lpList (fuel w : Nat) (elem : WireExpect) (bs : Bytes) :
    decodeW (fuel + 1) (.lpList w elem) bs =
      (readN w bs).bind fun q =>
        (decodeWList fuel (ofBeBytes q.1) elem q.2).map fun p => (.lpList w p.1, p.2) := by
  conv_lhs => unfold decodeW

theorem decodeWList_succ (fuel k : Nat) (e : WireExpect) (bs : Bytes) :
    decodeWList fuel (k + 1) e bs =
      (decodeW fuel e bs).bind fun q =>
        (decodeWList fuel k e q.2).map fun p => (q.1 :: p.1, p.2) := by
  conv_lhs => unfold decodeWList

/-- Auxiliary: homogeneous wire lists round-trip element by element. -/
theorem decodeWList_encodeWList (fuel : Nat) (e : WireExpect)
    (IH : ∀ p rest, wfW e p = true → depthW p ≤ fuel →
      decodeW fuel e (encodeW p ++ rest) = Option.some (p, rest)) :
    ∀ (ps : List WirePrim) (rest : Bytes), wfWList e ps = true →
      depthWList ps ≤ fuel →
      decodeWList fuel ps.length e (encodeWList ps ++ rest) = Option.some (ps, rest) := by
  intro ps
  induction ps with
  | nil => intro rest _ _; simp [encodeWList, decodeWList]
  | cons p ps ih =>
    intro rest hwf hd
    rw [wfWList, Bool.and_eq_true] at hwf
    rw [depthWList] at hd
    rw [List.length_cons, encodeWList, List.append_assoc, decodeWList_succ]
    rw [IH p _ hwf.1 (le_trans (le_max_left _ _) hd)]
    simp only [Option.some_bind]
    rw [ih _ hwf.2 (le_trans (le_max_right _ _) hd)]
    rfl

/-- The wire-primitive round trip: decoding the encoding of any primitive that
is well-formed for its declared shape returns the primitive and the untouched
tail. -/
theorem decodeW_encodeW : ∀ (fuel : Nat) (e : WireExpect) (p : WirePrim) (rest : Bytes),
    wfW e p = true → depthW p ≤ fuel →
    decodeW fuel e (encodeW p ++ rest) = Option.some (p, rest) := by
  intro fuel
  induction fuel with
  | zero =>
    intro e p rest _ hd
    exfalso
    cases p <;> simp [depthW] at hd
  | succ fuel ih =>
    intro e p rest hwf hd
    cases e with
    | address =>
      cases p <;> simp [wfW, wfAddressB] at hwf
      next a =>
      rw [encodeW, List.cons_append, decodeW_address, readByte_cons]
      simp only [Option.some_bind]
      rw [readN_of_length 20 _ rest (by tauto)]
      rfl
    | lpString w maxLen =>
      cases p <;> simp [wfW] at hwf
      next w2 m2 c =>
      have hw2 : w2 = w := by tauto
      have hm2 : m2 = maxLen := by tauto
      have hmax : c.length ≤ maxLen := by tauto
      have hlt : c.length < 256 ^ w := by tauto
      rw [hw2, hm2]
      rw [encodeW, List.append_assoc, decodeW_lpString]
      rw [readN_of_length w _ _ (beBytes_length w _)]
      simp only [Option.some_bind]
      rw [ofBeBytes_beBytes w _ hlt, if_pos hmax]
      rw [readN_of_length c.length c rest rfl]
      rfl
    | memo =>
      cases p <;> simp [wfW] at hwf
      next c =>
      have hlen : c.length ≤ 34 := by tauto
      have hlast : (List.getLast? c).getD 1 ≠ 0 := by tauto
      rw [encodeW, List.append_assoc, decodeW_memo]
      rw [← List.append_assoc c, readN_of_length 34 _ rest
        (by rw [List.length_append, List.length_replicate]; omega)]
      simp only [Option.map_some']
      rw [stripTrailingZeros_pad c _ (by rw [List.getLastD_eq_getLast?]; exact hlast)]
    | publicKey =>
      cases p <;> simp [wfW] at hwf
      next d =>
      have hshape : (List.length d = 33 ∧
          (d.head? = Option.some 2 ∨ d.head? = Option.some 3)) ∨
          (List.length d = 65 ∧ d.head? = Option.some 4) := by tauto
      rw [encodeW, decodeW_publicKey]
      rcases hshape with ⟨hlen, hhead⟩ | ⟨hlen, hhead⟩
      · obtain ⟨x, t, rfl⟩ : ∃ x t, d = x :: t := by
          cases d with
          | nil => simp at hlen
          | cons x t => exact ⟨x, t, rfl⟩
        have hx : x = 2 ∨ x = 3 := by simpa using hhead
        have hx4 : ¬ x = 4 := by rcases hx with rfl | rfl <;> norm_num
        rw [List.cons_append, readByte_cons]
        simp only [Option.some_bind]
        rw [if_neg hx4]
        rw [← List.cons_append, readN_of_length 33 _ rest hlen]
        rfl
      · obtain ⟨x, t, rfl⟩ : ∃ x t, d = x :: t := by
          cases d with
          | nil => simp at hlen
          | cons x t => exact ⟨x, t, rfl⟩
        have hx : x = 4 := by simpa using hhead
        rw [List.cons_append, readByte_cons]
        simp only [Option.some_bind]
        rw [if_pos hx]
        rw [← List.cons_append, readN_of_length 65 _ rest hlen]
        rfl
    | msgSig =>
      cases p <;> simp [wfW] at hwf
      next d =>
      rw [encodeW, decodeW_msgSig]
      rw [readN_of_length 65 _ rest (by tauto)]
      rfl
    | lpList w elem =>
      cases p <;> simp [wfW] at hwf
      next w2 items =>
      have hw2 : w2 = w := by tauto
      have hcount : items.length < 256 ^ w := by tauto
      have hitems : wfWList elem items = true := by tauto
      rw [depthW] at hd
      rw [hw2]
      rw [encodeW, List.append_assoc, decodeW_lpList]
      rw [readN_of_length w _ _ (beBytes_length w _)]
      simp only [Option.some_bind]
      rw [ofBeBytes_beBytes w _ hcount]
      rw [decodeWList_encodeWList fuel elem (ih elem) items rest hitems (by omega)]
      rfl

/-- C6: for every Clarity Value variant (including nested lists, tuples,
optionals and responses to arbitrary depth, covered by the decoder fuel) and
every Wire Primitive (against its declared shape), decoding the encoding
yields the original value: decode (encode x) = x with the buffer tail
untouched. -/
theorem claim_C6_codec_roundtrip :
    (∀ (fuel : Nat) (v : CV) (rest : Bytes), wfCV v = true → depthCV v ≤ fuel →
      decodeCV fuel (encodeCV v ++ rest) = Option.some (v, rest)) ∧
    (∀ (fuel : Nat) (e : WireExpect) (p : WirePrim) (rest : Bytes),
      wfW e p = true → depthW p ≤ fuel →
      decodeW fuel e (encodeW p ++ rest) = Option.some (p, rest)) :=
  ⟨decodeCV_encodeCV, decodeW_encodeW⟩

set_option maxRecDepth 100000 in
/-- Witness for C6 at a concrete nested tuple/list/optional/int value and a
concrete length-prefixed list of length-prefixed strings. -/
theorem claim_C6_codec_roundtrip_witness :
    decodeCV 4 (encodeCV (CV.tupleCV [([107], CV.listCV
        [CV.intCV (-5), CV.optionSome (CV.uintCV 7)])]) ++ [1, 2]) =
      Option.some (CV.tupleCV [([107], CV.listCV
        [CV.intCV (-5), CV.optionSome (CV.uintCV 7)])], [1, 2]) ∧
    decodeW 2 (WireExpect.lpList 4 (WireExpect.lpString 1 128))
        (encodeW (WirePrim.lpList 4 [WirePrim.lpString 1 128 [97, 98]]) ++ [9]) =
      Option.some (WirePrim.lpList 4 [WirePrim.lpString 1 128 [97, 98]], [9]) :=
  ⟨claim_C6_codec_roundtrip.1 4 _ _ (by decide) (by decide),
   claim_C6_codec_roundtrip.2 2 _ _ _ (by decide) (by decide)⟩

/-! ## Transaction assembly layer

Translated from src part_003 (the transaction builders, `sortPublicKeysForAddress`,
`mutatingSignAppendMultiSig`, `sponsorTransaction`) and src network.ts; the
authorization/signer/wire-construction modules those builders call are not
under src/ and are modelled from the spec (each such definition says so).
Collaborator calls and signature events are recorded in an explicit effect
list so that theorems can speak about which collaborators ran and in what
order. -/

/-- Error kinds of the transaction layer (§7): construction-time validation,
the explicit multi-sig capability gap of the infer/register-model variants,
multi-sig address-order resolution failure, and sponsor-path errors. -/
inductive Err where
  | valueTooLong
  | invalidIdentifier
  | unsupportedMultiSig (message : String)
  | addressKeyMismatch
  | notMultiSig
  | notSponsored
  | sponsoredTypeNotSupported
deriving DecidableEq

/-- The nine payload variants plus the two domain-specific ones (§3). -/
inductive PayloadType where
  | tokenTransfer
  | smartContract
  | versionedSmartContract
  | contractCall
  | poisonMicroblock
  | coinbase
  | coinbaseToAltRecipient
  | nakamotoCoinbase
  | tenureChange
  | infer
  | registerModel
deriving DecidableEq

/-- Payload records in the form the builders construct them (src wire type
declarations); fields are carried in source form. -/
inductive Payload where
  | tokenTransfer (recipient : String) (amount : Nat) (memo : String)
  | smartContract (contractName codeBody : String)
  | versionedSmartContract (clarityVersion : Nat) (contractName codeBody : String)
  | contractCall (contractAddress contractName functionName : String)
      (functionArgs : List CV)
  | poisonMicroblock
  | coinbase
  | coinbaseToAltRecipient
  | nakamotoCoinbase
  | tenureChange
  | infer (inferUserAddress : String) (amount : Nat) (userInput context : String)
      (nodePrincipal : String) (modelName : String)
  | registerModel (modelName modelParams : String)

/-- The payload-type tag of a payload (src constants / wire types). -/
def Payload.payloadType : Payload → PayloadType
  | .tokenTransfer .. => .tokenTransfer
  | .smartContract .. => .smartContract
  | .versionedSmartContract .. => .versionedSmartContract
  | .contractCall .. => .contractCall
  | .poisonMicroblock => .poisonMicroblock
  | .coinbase => .coinbase
  | .coinbaseToAltRecipient => .coinbaseToAltRecipient
  | .nakamotoCoinbase => .nakamotoCoinbase
  | .tenureChange => .tenureChange
  | .infer .. => .infer
  | .registerModel .. => .registerModel

/-- Post-condition wire values attached to deploy/call transactions; the
builders carry them opaquely (no claim inspects their structure). -/
structure PostConditionW where
  raw : String
deriving DecidableEq

/-- Address hash modes (src constants: P2PKH/P2WPKH single-sig,
P2SH/P2SH-non-sequential multi-sig, §3). -/
inductive AddressHashMode where
  | p2pkh
  | p2sh
  | p2wpkh
  | p2wsh
  | p2shNonSequential
  | p2wshNonSequential
deriving DecidableEq

/-- An authorization field of a multi-sig spending condition: a recoverable
message signature, or a raw public key for a member who did not sign (§3). -/
inductive AuthFieldW where
  | sig (signature : String)
  | pubkey (publicKey : String)
deriving DecidableEq

/-- Single-sig spending condition (hash mode, signer hash160, nonce, fee, one
signature field). -/
structure SingleSigSC where
  hashMode : AddressHashMode
  signer : String
  nonce : Nat
  fee : Nat
  signature : String
deriving DecidableEq

/-- Multi-sig spending condition (hash mode, signer hash160, nonce, fee,
ordered authorization fields, required signature count). -/
structure MultiSigSC where
  hashMode : AddressHashMode
  signer : String
  nonce : Nat
  fee : Nat
  fields : List AuthFieldW
  signaturesRequired : Nat
deriving DecidableEq

/-- A spending condition, an explicit sum as §9 directs. -/
inductive SpendingCondition where
  | single (c : SingleSigSC)
  | multi (c : MultiSigSC)
deriving DecidableEq

/-- `isSingleSig` discriminates spending conditions (§4.4). -/
def isSingleSig : SpendingCondition → Bool
  | .single _ => true
  | .multi _ => false

def SpendingCondition.signer : SpendingCondition → String
  | .single c => c.signer
  | .multi c => c.signer

def SpendingCondition.fee : SpendingCondition → Nat
  | .single c => c.fee
  | .multi c => c.fee

def SpendingCondition.nonce : SpendingCondition → Nat
  | .single c => c.nonce
  | .multi c => c.nonce

def SpendingCondition.hashModeOf : SpendingCondition → AddressHashMode
  | .single c => c.hashMode
  | .multi c => c.hashMode

def SpendingCondition.sigsRequired : SpendingCondition → Nat
  | .single _ => 1
  | .multi c => c.signaturesRequired

/-- The ordered multi-sig authorization fields ([] for single-sig). -/
def SpendingCondition.fieldsOf : SpendingCondition → List AuthFieldW
  | .single _ => []
  | .multi c => c.fields

def SpendingCondition.withFee (f : Nat) : SpendingCondition → SpendingCondition
  | .single c => .single { c with fee := f }
  | .multi c => .multi { c with fee := f }

def SpendingCondition.withNonce (n : Nat) : SpendingCondition → SpendingCondition
  | .single c => .single { c with nonce := n }
  | .multi c => .multi { c with nonce := n }

/-- Standard (origin only) or Sponsored (origin + sponsor) authorization (§3). -/
inductive Authorization where
  | standard (origin : SpendingCondition)
  | sponsored (origin : SpendingCondition) (sponsor : SpendingCondition)
deriving DecidableEq

def Authorization.originCondition : Authorization → SpendingCondition
  | .standard o => o
  | .sponsored o _ => o

/-- A network parameter record (src network.ts `FunaiNetwork`). -/
structure FunaiNetwork where
  chainId : Nat
  transactionVersion : Nat
  peerNetworkId : Nat
  magicBytes : String
  bootAddress : String
  addressVersionSingleSig : Nat
  addressVersionMultiSig : Nat
  baseUrl : String
deriving DecidableEq

/-- Modelled from the spec: the mainnet parameter set of src network.ts (the
numeric enum values live in a constants module not under src/; the standard
chain values are used). -/
def FUNAI_MAINNET : FunaiNetwork :=
  { chainId := 1, transactionVersion := 0, peerNetworkId := 385875968
    magicBytes := "X2", bootAddress := "SP000000000000000000002Q6VF78"
    addressVersionSingleSig := 22, addressVersionMultiSig := 20
    baseUrl := "http://34.143.166.224:20443" }

/-- Modelled from the spec: the testnet parameter set of src network.ts. -/
def FUNAI_TESTNET : FunaiNetwork :=
  { chainId := 2147483648, transactionVersion := 128, peerNetworkId := 4278190080
    magicBytes := "T2", bootAddress := "ST000000000000000000002AMW42H"
    addressVersionSingleSig := 26, addressVersionMultiSig := 21
    baseUrl := "http://localhost:20443" }

/-- Post-condition mode values (Allow/Deny; src constants). -/
def pcmAllow : Nat := 1

/-- Deny is the builders' default post-condition mode. -/
def pcmDeny : Nat := 2

/-- A transaction: version, chain id, authorization, payload, post-condition
mode and post-conditions (§3). -/
structure Transaction where
  transactionVersion : Nat
  chainId : Nat
  auth : Authorization
  payload : Payload
  postConditionMode : Nat
  postConditions : List PostConditionW

/-- Modelled from the spec: `setFee` targets the condition that pays the fee,
the origin condition for standard authorization and the sponsor condition for
sponsored authorization. -/
def Transaction.setFee (tx : Transaction) (f : Nat) : Transaction :=
  match tx.auth with
  | .standard o => { tx with auth := .standard (o.withFee f) }
  | .sponsored o sp => { tx with auth := .sponsored o (sp.withFee f) }

/-- Modelled from the spec: `setNonce` sets the origin condition's nonce. -/
def Transaction.setNonce (tx : Transaction) (n : Nat) : Transaction :=
  match tx.auth with
  | .standard o => { tx with auth := .standard (o.withNonce n) }
  | .sponsored o sp => { tx with auth := .sponsored (o.withNonce n) sp }

/-- Modelled from the spec: `setSponsor` replaces the sponsor condition of a
sponsored transaction; a standard transaction has no sponsor slot. -/
def Transaction.setSponsor (tx : Transaction) (sp : SpendingCondition) :
    Except Err Transaction :=
  match tx.auth with
  | .standard _ => .error .notSponsored
  | .sponsored o _ => .ok { tx with auth := .sponsored o sp }

/-- The fee recorded on the condition `setFee` targets. -/
def Transaction.feeTarget (tx : Transaction) : Nat :=
  match tx.auth with
  | .standard o => o.fee
  | .sponsored _ sp => sp.fee

/-- The origin condition's fee. -/
def Transaction.originFee (tx : Transaction) : Nat := tx.auth.originCondition.fee

/-- The origin condition's nonce. -/
def Transaction.originNonce (tx : Transaction) : Nat := tx.auth.originCondition.nonce

/-- Render a Clarity argument via its real byte encoding. -/
def renderCVArg (v : CV) : String := toString (encodeCV v)

/-- Modelled from the spec: the deterministic rendering of a payload's fields
in fixed declared order (§4.3; the byte-exact layout is abstracted, the
rendering is injective per variant). -/
def serializePayloadS : Payload → String
  | .tokenTransfer r a m => "tt:" ++ r ++ ":" ++ toString a ++ ":" ++ m
  | .smartContract n c => "sc:" ++ n ++ ":" ++ c
  | .versionedSmartContract v n c => "vsc:" ++ toString v ++ ":" ++ n ++ ":" ++ c
  | .contractCall addr n f args =>
    "cc:" ++ addr ++ ":" ++ n ++ ":" ++ f ++ ":" ++
      String.intercalate ";" (args.map renderCVArg)
  | .poisonMicroblock => "poison"
  | .coinbase => "coinbase"
  | .coinbaseToAltRecipient => "coinbase-alt"
  | .nakamotoCoinbase => "coinbase-nakamoto"
  | .tenureChange => "tenure-change"
  | .infer u a i c np m =>
    "infer:" ++ u ++ ":" ++ toString a ++ ":" ++ i ++ ":" ++ c ++ ":" ++ np ++ ":" ++ m
  | .registerModel n p => "rm:" ++ n ++ ":" ++ p

def renderHashMode : AddressHashMode → String
  | .p2pkh => "p2pkh"
  | .p2sh => "p2sh"
  | .p2wpkh => "p2wpkh"
  | .p2wsh => "p2wsh"
  | .p2shNonSequential => "p2shn"
  | .p2wshNonSequential => "p2wshn"

def renderAuthField : AuthFieldW → String
  | .sig s => "s(" ++ s ++ ")"
  | .pubkey p => "p(" ++ p ++ ")"

def renderSpendingCondition : SpendingCondition → String
  | .single c =>
    "1:" ++ renderHashMode c.hashMode ++ ":" ++ c.signer ++ ":" ++
      toString c.nonce ++ ":" ++ toString c.fee ++ ":" ++ c.signature
  | .multi c =>
    "m:" ++ renderHashMode c.hashMode ++ ":" ++ c.signer ++ ":" ++
      toString c.nonce ++ ":" ++ toString c.fee ++ ":" ++
      toString c.signaturesRequired ++ ":" ++
      String.intercalate ";" (c.fields.map renderAuthField)

def renderAuth : Authorization → String
  | .standard o => "std[" ++ renderSpendingCondition o ++ "]"
  | .sponsored o sp =>
    "spn[" ++ renderSpendingCondition o ++ "|" ++ renderSpendingCondition sp ++ "]"

/-- Modelled from the spec: the deterministic serialization of a transaction
(version, chain id, authorization, payload, post-condition mode,
post-conditions, in that order; §3).  The byte-exact layout is abstracted; the
claims use that this is a function of the transaction alone. -/
def serializeTransaction (tx : Transaction) : String :=
  "tx:" ++ toString tx.transactionVersion ++ ":" ++ toString tx.chainId ++ ":" ++
    renderAuth tx.auth ++ ":" ++ serializePayloadS tx.payload ++ ":" ++
    toString tx.postConditionMode ++ ":" ++
    String.intercalate ";" (tx.postConditions.map PostConditionW.raw)

/-! ### External cryptographic collaborators (modelled) -/

/-- Modelled from the spec (§6): public-key derivation from a private key
(external crypto collaborator; modelled injectively). -/
def privateKeyToPublic (privKey : String) : String := "pub:" ++ privKey

/-- Modelled from the spec (§6): the hash160 an address derives from a hash
mode, a required-signature count and an ordered public-key list
(`addressFromPublicKeys(...).hash160`; external crypto collaborator, modelled
as an injective rendering of its inputs). -/
def addressFromPublicKeysHash160 (hashMode : AddressHashMode) (numSigs : Nat)
    (publicKeys : List String) : String :=
  "h160:" ++ renderHashMode hashMode ++ ":" ++ toString numSigs ++ ":" ++
    String.intercalate "," publicKeys

/-- Modelled from the spec: c32 rendering of an address version byte and a
hash160 (the external c32check library; injective in both arguments). -/
def c32address (version : Nat) (hash160 : String) : String :=
  "S" ++ toString version ++ ":" ++ hash160

/-- Modelled from the spec: `createAddress(address).hash160` — the hash160 a
caller-supplied address string denotes (external c32check library; modelled as
the identity so that an address denoting any target hash is expressible). -/
def createAddressHash160 (address : String) : String := address

/-- Modelled from the spec (§6): the address a public key denotes under an
address version (`publicKeyToAddress`). -/
def publicKeyToAddress (version : Nat) (pubKey : String) : String :=
  c32address version (addressFromPublicKeysHash160 .p2pkh 1 [pubKey])

/-- The constant null principal the infer builder stores as node principal
(part_003 line 176). -/
def nullPrincipal : String := "ST000000000000000000002AMW42H"

/-! ### Spending-condition construction (§4.4; modelled from the spec, the
authorization module is not under src/) -/

/-- Modelled from the spec (§4.4): single-sig condition with an empty
signature area; the signer is the hash160 of the one public key. -/
def createSingleSigSpendingCondition (hashMode : AddressHashMode) (pubKey : String)
    (nonce fee : Nat) : SpendingCondition :=
  .single { hashMode, signer := addressFromPublicKeysHash160 hashMode 1 [pubKey],
            nonce, fee, signature := "" }

/-- Modelled from the spec (§4.4): multi-sig condition with an empty field
sequence; the signer is the hash160 of the ordered public keys. -/
def createMultiSigSpendingCondition (hashMode : AddressHashMode) (numSigs : Nat)
    (pubKeys : List String) (nonce fee : Nat) : SpendingCondition :=
  .multi { hashMode, signer := addressFromPublicKeysHash160 hashMode numSigs pubKeys,
           nonce, fee, fields := [], signaturesRequired := numSigs }

/-- Standard authorization wraps the origin condition (§4.4). -/
def createStandardAuth (sc : SpendingCondition) : Authorization := .standard sc

/-- Modelled from the spec (§4.4): sponsored authorization starts with a
single-sig placeholder sponsor condition, replaced later via `setSponsor`. -/
def createSponsoredAuth (sc : SpendingCondition) : Authorization :=
  .sponsored sc (createSingleSigSpendingCondition .p2pkh ("".pushn '0' 66) 0 0)

/-! ### String ordering and public-key sorting -/

/-- Lexicographic comparison of character lists by code point (the order the
source's JS `Array.sort()` applies to hex public-key strings: ascending by
byte value). -/
def charListLe : List Char → List Char → Bool
  | [], _ => true
  | _ :: _, [] => false
  | a :: as, b :: bs =>
    if a.toNat < b.toNat then true
    else if b.toNat < a.toNat then false
    else charListLe as bs

/-- String comparison ascending by byte value. -/
def strLe (a b : String) : Bool := charListLe a.data b.data

/-- Insert into a sorted list (ascending by `strLe`). -/
def insertSorted (x : String) : List String → List String
  | [] => [x]
  | y :: ys => if strLe x y then x :: y :: ys else y :: insertSorted x ys

/-- The ascending-by-byte-value sort the source's `publicKeys.slice().sort()`
produces. -/
def sortStrings : List String → List String
  | [] => []
  | x :: xs => insertSorted x (sortStrings xs)

/-- Translated from src (part_003 lines 927-955): resolve the public-key
order matching a multi-sig address hash — the as-given order if its hash
matches, else the sorted order if its hash matches, else
`AddressKeyMismatch`. -/
def sortPublicKeysForAddress (publicKeys : List String) (numSigs : Nat)
    (hashMode : AddressHashMode) (hash : String) : Except Err (List String) :=
  let hashUnsorted := addressFromPublicKeysHash160 hashMode numSigs publicKeys
  if hashUnsorted = hash then .ok publicKeys
  else
    let publicKeysSorted := sortStrings publicKeys
    let hashSorted := addressFromPublicKeysHash160 hashMode numSigs publicKeysSorted
    if hashSorted = hash then .ok publicKeysSorted
    else .error .addressKeyMismatch

/-! ### Collaborators, effects, signing -/

/-- The fee-estimation and nonce-lookup collaborators (§6), passed
explicitly. -/
structure Env where
  feeEstimate : Transaction → Nat
  nonceLookup : String → Nat

/-- Observable events of one builder run: collaborator calls and
signature/field computations, in order. -/
inductive Effect where
  | feeEstimateCall (tx : Transaction)
  | nonceLookupCall (address : String)
  | signOriginEff (privKey : String)
  | setSponsorEff
  | signSponsorEff (privKey : String)

/-- Modelled from the spec (§4.5): the recoverable-signature primitive over
the current sighash (external crypto collaborator; injective rendering). -/
def signWithKey (privKey sigHash : String) : String :=
  "sig:" ++ privKey ++ ":" ++ sigHash

/-- Modelled from the spec (§4.5 step 1): the initial pre-sign hash over the
whole transaction with its empty signature area. -/
def preSignSigHash (tx : Transaction) : String :=
  "presign:" ++ serializeTransaction tx

/-- Modelled from the spec (§4.5 step 4): chain the running hash with the
newly appended authorization field. -/
def nextSigHash (prev : String) (field : AuthFieldW) : String :=
  "h:" ++ prev ++ ":" ++ renderAuthField field

/-- Apply one authorization field to a spending condition: a signature fills
the single-sig signature area; any field is appended to a multi-sig field
sequence (§4.5 step 3). -/
def SpendingCondition.applyField (sc : SpendingCondition) (field : AuthFieldW) :
    SpendingCondition :=
  match sc, field with
  | .single c, .sig s => .single { c with signature := s }
  | .single c, .pubkey _ => .single c
  | .multi c, f => .multi { c with fields := c.fields ++ [f] }

/-- Apply one authorization field to the origin condition. -/
def Transaction.applyOriginField (tx : Transaction) (field : AuthFieldW) :
    Transaction :=
  match tx.auth with
  | .standard o => { tx with auth := .standard (o.applyField field) }
  | .sponsored o sp => { tx with auth := .sponsored (o.applyField field) sp }

/-- Modelled from the spec (§4.5): the incremental signer state — the
transaction being mutated and the running sighash. -/
structure SignerState where
  transaction : Transaction
  sigHash : String

/-- `TransactionSigner` construction: start from the pre-sign hash. -/
def newSigner (tx : Transaction) : SignerState := ⟨tx, preSignSigHash tx⟩

/-- Modelled from the spec (§4.5 steps 2-4): sign the current sighash and
append the resulting message signature as the next origin field. -/
def SignerState.signOrigin (st : SignerState) (privKey : String) : SignerState :=
  let field := AuthFieldW.sig (signWithKey privKey st.sigHash)
  { transaction := st.transaction.applyOriginField field,
    sigHash := nextSigHash st.sigHash field }

/-- Modelled from the spec (§4.5 step 5): append a raw public key as the next
origin field for a member who does not sign here. -/
def SignerState.appendOrigin (st : SignerState) (publicKey : String) : SignerState :=
  let field := AuthFieldW.pubkey publicKey
  { transaction := st.transaction.applyOriginField field,
    sigHash := nextSigHash st.sigHash field }

/-- Single-sig origin signing as the signed builders drive it: a fresh signer
over the unsigned transaction, one `signOrigin`. -/
def signTransactionSingle (tx : Transaction) (privKey : String) : Transaction :=
  ((newSigner tx).signOrigin privKey).transaction

/-- One step of the multi-sig convenience signing walk (the body of the
`for` loop in part_003 lines 914-923): sign when a supplied private key
matches this public key, append the raw public key otherwise. -/
def signStep (signerKeys : List String) (st : SignerState) (publicKey : String) :
    SignerState :=
  match signerKeys.find? (fun key => privateKeyToPublic key == publicKey) with
  | Option.some signerKey => st.signOrigin signerKey
  | Option.none => st.appendOrigin publicKey

/-- Translated from src (part_003 lines 891-924): resolve the public-key
order (against the supplied address when present), then walk it, signing with
the matching supplied private key when one exists and appending the raw
public key otherwise. -/
def mutatingSignAppendMultiSig (tx : Transaction) (publicKeys signerKeys : List String)
    (address : Option String) : Except Err Transaction :=
  if isSingleSig tx.auth.originCondition then .error .notMultiSig
  else
    match (match address with
      | Option.some a =>
        sortPublicKeysForAddress publicKeys tx.auth.originCondition.sigsRequired
          tx.auth.originCondition.hashModeOf (createAddressHash160 a)
      | Option.none => .ok publicKeys) with
    | .error e => .error e
    | .ok pubs =>
      .ok (pubs.foldl (signStep signerKeys) (newSigner tx)).transaction

/-! ### Payload construction (§4.3; modelled from the spec, the wire
construction module is not under src/) -/

/-- Modelled from the spec (§4.3): the chain's identifier-length limit. -/
def validIdentifier (s : String) : Bool := decide (s.utf8ByteSize ≤ 128)

/-- Modelled from the spec (§4.3): token-transfer payload; the memo must fit
the fixed 34-byte field (`ValueTooLong` otherwise).  The recipient is carried
as its address string. -/
def createTokenTransferPayload (recipient : String) (amount : Nat) (memo : String) :
    Except Err Payload :=
  if memo.utf8ByteSize ≤ 34 then .ok (.tokenTransfer recipient amount memo)
  else .error .valueTooLong

/-- Modelled from the spec (§4.3): smart-contract payload; a supplied Clarity
version selects the versioned variant; the contract name obeys the identifier
limit (`InvalidIdentifier` otherwise). -/
def createSmartContractPayload (contractName codeBody : String) (cv : Option Nat) :
    Except Err Payload :=
  if validIdentifier contractName then
    .ok (match cv with
      | Option.some v => .versionedSmartContract v contractName codeBody
      | Option.none => .smartContract contractName codeBody)
  else .error .invalidIdentifier

/-- Modelled from the spec (§4.3): contract-call payload; contract and
function names obey the identifier limit. -/
def createContractCallPayload (contractAddress contractName functionName : String)
    (functionArgs : List CV) : Except Err Payload :=
  if validIdentifier contractName && validIdentifier functionName then
    .ok (.contractCall contractAddress contractName functionName functionArgs)
  else .error .invalidIdentifier

/-- Modelled from the spec (§4.3): infer payload — user principal, amount,
two length-prefixed UTF-8 strings (input, context), node principal, model
name; string byte lengths must fit their 4-byte length prefixes. -/
def createInferPayload (inferUserAddress : String) (amount : Nat)
    (userInput context nodePrincipal modelName : String) : Except Err Payload :=
  if userInput.utf8ByteSize < 2 ^ 32 && context.utf8ByteSize < 2 ^ 32 &&
      modelName.utf8ByteSize < 2 ^ 32 then
    .ok (.infer inferUserAddress amount userInput context nodePrincipal modelName)
  else .error .valueTooLong

/-- Modelled from the spec (§4.3): register-model payload — model name and
model-parameters string. -/
def createRegisterModelPayload (modelName modelParams : String) : Except Err Payload :=
  if modelName.utf8ByteSize < 2 ^ 32 && modelParams.utf8ByteSize < 2 ^ 32 then
    .ok (.registerModel modelName modelParams)
  else .error .valueTooLong

/-! ### Builder options (src part_003)

The source discriminates single- vs multi-sig by the presence of
`publicKey`/`senderKey` fields; per §9 that becomes an explicit sum passed
beside the shared option record.  Omitted fee/nonce are `Option.none`; an
explicit zero is `Option.some 0` — the distinction the builders' `== null`
checks observe. -/

/-- Single- vs multi-sig parameters of the unsigned builders. -/
inductive UnsignedSigner where
  | single (publicKey : String)
  | multi (numSignatures : Nat) (publicKeys : List String)
      (address : Option String) (useNonSequentialMultiSig : Bool)

/-- Single- vs multi-sig parameters of the signed builders. -/
inductive SignedSigner where
  | single (senderKey : String)
  | multi (numSignatures : Nat) (publicKeys : List String)
      (address : Option String) (useNonSequentialMultiSig : Bool)
      (signerKeys : List String)

/-- `TokenTransferOptions` (part_003), defaults as `defaultOptions` sets
them. -/
structure TokenTransferOptions where
  recipient : String
  amount : Nat
  fee : Option Nat := Option.none
  nonce : Option Nat := Option.none
  memo : String := ""
  sponsored : Bool := false
  network : FunaiNetwork := FUNAI_MAINNET

/-- `InferOptions` (part_003).  `nodePrincipal` is not a declared option of
the builder but is what the API layer (`submitInferenceTask`, part_001)
passes along; the builder never reads it. -/
structure InferOptions where
  inferUserAddress : String
  amount : Nat
  userInput : String
  context : String
  modelName : String
  nodePrincipal : Option String := Option.none
  fee : Option Nat := Option.none
  nonce : Option Nat := Option.none
  sponsored : Bool := false
  network : FunaiNetwork := FUNAI_MAINNET

/-- `RegisterModelOptions` (part_003). -/
structure RegisterModelOptions where
  modelName : String
  modelParams : String
  fee : Option Nat := Option.none
  nonce : Option Nat := Option.none
  sponsored : Bool := false
  network : FunaiNetwork := FUNAI_MAINNET

/-- `BaseContractDeployOptions` (part_003); `clarityVersion` defaults to
Clarity 3 as `defaultOptions` sets it. -/
structure ContractDeployOptions where
  clarityVersion : Nat := 3
  contractName : String
  codeBody : String
  fee : Option Nat := Option.none
  nonce : Option Nat := Option.none
  postConditionMode : Nat := pcmDeny
  postConditions : List PostConditionW := []
  sponsored : Bool := false
  network : FunaiNetwork := FUNAI_MAINNET

/-- `ContractCallOptions` (part_003).  ABI validation is an out-of-scope
collaborator (§1) and is not modelled. -/
structure ContractCallOptions where
  contractAddress : String
  contractName : String
  functionName : String
  functionArgs : List CV
  fee : Option Nat := Option.none
  nonce : Option Nat := Option.none
  postConditionMode : Nat := pcmDeny
  postConditions : List PostConditionW := []
  sponsored : Bool := false
  network : FunaiNetwork := FUNAI_MAINNET

/-! ### Transaction assembly (src part_003) -/

/-- The fee/nonce finalization every builder ends with (the identical trailing
blocks of each `makeUnsigned*` in part_003): when the caller omitted the fee,
call the fee-estimation collaborator on the constructed transaction and set
the result; when the caller omitted the nonce, render the origin address from
the origin signer hash160 with the network's single-sig address version, call
the nonce-lookup collaborator, and set the result. -/
def finalizeFeeNonce (env : Env) (feeOpt nonceOpt : Option Nat)
    (network : FunaiNetwork) (tx : Transaction) : Transaction × List Effect :=
  let step1 : Transaction × List Effect :=
    match feeOpt with
    | Option.some _ => (tx, [])
    | Option.none => (tx.setFee (env.feeEstimate tx), [Effect.feeEstimateCall tx])
  let step2 : Transaction × List Effect :=
    match nonceOpt with
    | Option.some _ => (step1.1, [])
    | Option.none =>
      let address := c32address network.addressVersionSingleSig
        step1.1.auth.originCondition.signer
      (step1.1.setNonce (env.nonceLookup address), [Effect.nonceLookupCall address])
  (step2.1, step1.2 ++ step2.2)

/-- The spending condition every deploy/call/transfer builder constructs from
its signer parameters (part_003: the identical single/multi-sig branches of
`makeUnsignedFunaiTokenTransfer`, `makeUnsignedContractDeploy`,
`makeUnsignedContractCall`). -/
def buildSpendingCondition (signer : UnsignedSigner) (nonce fee : Nat) :
    Except Err SpendingCondition :=
  match signer with
  | .single publicKey =>
    .ok (createSingleSigSpendingCondition .p2pkh publicKey nonce fee)
  | .multi numSignatures publicKeys address useNonSeq =>
    let hashMode := if useNonSeq then AddressHashMode.p2shNonSequential
      else AddressHashMode.p2sh
    match address with
    | Option.some a =>
      match sortPublicKeysForAddress publicKeys numSignatures hashMode
          (createAddressHash160 a) with
      | .error e => .error e
      | .ok pubs =>
        .ok (createMultiSigSpendingCondition hashMode numSignatures pubs nonce fee)
    | Option.none =>
      .ok (createMultiSigSpendingCondition hashMode numSignatures publicKeys nonce fee)

/-- The common tail of every builder (part_003: authorization wrapping,
`new FunaiTransactionWire`, and the trailing fee/nonce fill — code that is
repeated verbatim in each `makeUnsigned*`): wrap the spending condition in
standard or sponsored authorization, assemble the transaction, then fill
omitted fee/nonce via the collaborators. -/
def assembleAndFinalize (env : Env) (feeOpt nonceOpt : Option Nat)
    (net : FunaiNetwork) (sponsored : Bool) (payload : Payload) (pcm : Nat)
    (pcs : List PostConditionW) (sc : SpendingCondition) :
    Except Err Transaction × List Effect :=
  let authorization := if sponsored then createSponsoredAuth sc
    else createStandardAuth sc
  let tx : Transaction := {
    transactionVersion := net.transactionVersion
    chainId := net.chainId
    auth := authorization
    payload := payload
    postConditionMode := pcm
    postConditions := pcs }
  (.ok (finalizeFeeNonce env feeOpt nonceOpt net tx).1,
    (finalizeFeeNonce env feeOpt nonceOpt net tx).2)

/-- `makeUnsignedFunaiTokenTransfer` (part_003 lines 329-405): payload, then
spending condition, then the shared tail (no post-conditions on
transfers). -/
def makeUnsignedFunaiTokenTransfer (env : Env) (o : TokenTransferOptions)
    (signer : UnsignedSigner) : Except Err Transaction × List Effect :=
  match createTokenTransferPayload o.recipient o.amount o.memo with
  | .error e => (.error e, [])
  | .ok payload =>
    match buildSpendingCondition signer (o.nonce.getD 0) (o.fee.getD 0) with
    | .error e => (.error e, [])
    | .ok spendingCondition =>
      assembleAndFinalize env o.fee o.nonce o.network o.sponsored payload
        pcmDeny [] spendingCondition

/-- `makeFunaiTokenTransfer` (part_003 lines 416-444): the signed variant —
single-sig derives the public key, builds unsigned, then drives one origin
signature; multi-sig builds unsigned then applies
`mutatingSignAppendMultiSig`. -/
def makeFunaiTokenTransfer (env : Env) (o : TokenTransferOptions)
    (signer : SignedSigner) : Except Err Transaction × List Effect :=
  match signer with
  | .single senderKey =>
    match makeUnsignedFunaiTokenTransfer env o (.single (privateKeyToPublic senderKey)) with
    | (.error e, eff) => (.error e, eff)
    | (.ok tx, eff) =>
      (.ok (signTransactionSingle tx senderKey), eff ++ [Effect.signOriginEff senderKey])
  | .multi numSignatures publicKeys address useNonSeq signerKeys =>
    match makeUnsignedFunaiTokenTransfer env o
        (.multi numSignatures publicKeys address useNonSeq) with
    | (.error e, eff) => (.error e, eff)
    | (.ok tx, eff) =>
      match mutatingSignAppendMultiSig tx publicKeys signerKeys address with
      | .error e => (.error e, eff)
      | .ok tx2 => (.ok tx2, eff)

/-- `makeUnsignedContractDeploy` (part_003 lines 523-612). -/
def makeUnsignedContractDeploy (env : Env) (o : ContractDeployOptions)
    (signer : UnsignedSigner) : Except Err Transaction × List Effect :=
  match createSmartContractPayload o.contractName o.codeBody
      (Option.some o.clarityVersion) with
  | .error e => (.error e, [])
  | .ok payload =>
    match buildSpendingCondition signer (o.nonce.getD 0) (o.fee.getD 0) with
    | .error e => (.error e, [])
    | .ok spendingCondition =>
      assembleAndFinalize env o.fee o.nonce o.network o.sponsored payload
        o.postConditionMode o.postConditions spendingCondition

/-- `makeContractDeploy` (part_003 lines 493-521). -/
def makeContractDeploy (env : Env) (o : ContractDeployOptions)
    (signer : SignedSigner) : Except Err Transaction × List Effect :=
  match signer with
  | .single senderKey =>
    match makeUnsignedContractDeploy env o (.single (privateKeyToPublic senderKey)) with
    | (.error e, eff) => (.error e, eff)
    | (.ok tx, eff) =>
      (.ok (signTransactionSingle tx senderKey), eff ++ [Effect.signOriginEff senderKey])
  | .multi numSignatures publicKeys address useNonSeq signerKeys =>
    match makeUnsignedContractDeploy env o
        (.multi numSignatures publicKeys address useNonSeq) with
    | (.error e, eff) => (.error e, eff)
    | (.ok tx, eff) =>
      match mutatingSignAppendMultiSig tx publicKeys signerKeys address with
      | .error e => (.error e, eff)
      | .ok tx2 => (.ok tx2, eff)

/-- `makeUnsignedContractCall` (part_003 lines 658-762; ABI validation is an
out-of-scope collaborator and not modelled). -/
def makeUnsignedContractCall (env : Env) (o : ContractCallOptions)
    (signer : UnsignedSigner) : Except Err Transaction × List Effect :=
  match createContractCallPayload o.contractAddress o.contractName o.functionName
      o.functionArgs with
  | .error e => (.error e, [])
  | .ok payload =>
    match buildSpendingCondition signer (o.nonce.getD 0) (o.fee.getD 0) with
    | .error e => (.error e, [])
    | .ok spendingCondition =>
      assembleAndFinalize env o.fee o.nonce o.network o.sponsored payload
        o.postConditionMode o.postConditions spendingCondition

/-- `makeContractCall` (part_003 lines 773-801). -/
def makeContractCall (env : Env) (o : ContractCallOptions)
    (signer : SignedSigner) : Except Err Transaction × List Effect :=
  match signer with
  | .single senderKey =>
    match makeUnsignedContractCall env o (.single (privateKeyToPublic senderKey)) with
    | (.error e, eff) => (.error e, eff)
    | (.ok tx, eff) =>
      (.ok (signTransactionSingle tx senderKey), eff ++ [Effect.signOriginEff senderKey])
  | .multi numSignatures publicKeys address useNonSeq signerKeys =>
    match makeUnsignedContractCall env o
        (.multi numSignatures publicKeys address useNonSeq) with
    | (.error e, eff) => (.error e, eff)
    | (.ok tx, eff) =>
      match mutatingSignAppendMultiSig tx publicKeys signerKeys address with
      | .error e => (.error e, eff)
      | .ok tx2 => (.ok tx2, eff)

/-- `makeUnsignedInfer` (part_003 lines 158-221): the infer payload always
stores the fixed null principal as node principal; only the single-sig path
exists — the multi-sig path rejects with the `UnsupportedMultiSig` capability
gap ("Multi-sig infer not yet implemented") before any spending condition,
transaction, collaborator call or signature. -/
def makeUnsignedInfer (env : Env) (o : InferOptions) (signer : UnsignedSigner) :
    Except Err Transaction × List Effect :=
  match createInferPayload o.inferUserAddress o.amount o.userInput o.context
      nullPrincipal o.modelName with
  | .error e => (.error e, [])
  | .ok payload =>
    match signer with
    | .multi _ _ _ _ =>
      (.error (.unsupportedMultiSig "Multi-sig infer not yet implemented"), [])
    | .single publicKey =>
      assembleAndFinalize env o.fee o.nonce o.network o.sponsored payload pcmDeny []
        (createSingleSigSpendingCondition .p2pkh publicKey
          (o.nonce.getD 0) (o.fee.getD 0))

/-- `makeInfer` (part_003 lines 224-241): single-sig signs after the unsigned
construction; the multi-sig path rejects immediately with the
`UnsupportedMultiSig` capability gap. -/
def makeInfer (env : Env) (o : InferOptions) (signer : SignedSigner) :
    Except Err Transaction × List Effect :=
  match signer with
  | .single senderKey =>
    match makeUnsignedInfer env o (.single (privateKeyToPublic senderKey)) with
    | (.error e, eff) => (.error e, eff)
    | (.ok tx, eff) =>
      (.ok (signTransactionSingle tx senderKey), eff ++ [Effect.signOriginEff senderKey])
  | .multi _ _ _ _ _ =>
    (.error (.unsupportedMultiSig "Multi-sig infer not yet implemented"), [])

/-- `makeUnsignedRegisterModel` (part_003 lines 243-300): like the infer
builder, with the register-model payload and the same multi-sig capability
gap ("Multi-sig register-model not yet implemented"). -/
def makeUnsignedRegisterModel (env : Env) (o : RegisterModelOptions)
    (signer : UnsignedSigner) : Except Err Transaction × List Effect :=
  match createRegisterModelPayload o.modelName o.modelParams with
  | .error e => (.error e, [])
  | .ok payload =>
    match signer with
    | .multi _ _ _ _ =>
      (.error (.unsupportedMultiSig "Multi-sig register-model not yet implemented"), [])
    | .single publicKey =>
      assembleAndFinalize env o.fee o.nonce o.network o.sponsored payload pcmDeny []
        (createSingleSigSpendingCondition .p2pkh publicKey
          (o.nonce.getD 0) (o.fee.getD 0))

/-- `makeRegisterModel` (part_003 lines 302-318). -/
def makeRegisterModel (env : Env) (o : RegisterModelOptions) (signer : SignedSigner) :
    Except Err Transaction × List Effect :=
  match signer with
  | .single senderKey =>
    match makeUnsignedRegisterModel env o (.single (privateKeyToPublic senderKey)) with
    | (.error e, eff) => (.error e, eff)
    | (.ok tx, eff) =>
      (.ok (signTransactionSingle tx senderKey), eff ++ [Effect.signOriginEff senderKey])
  | .multi _ _ _ _ _ =>
    (.error (.unsupportedMultiSig "Multi-sig register-model not yet implemented"), [])

/-- Modelled from the spec (§4.5): sponsor signing restarts the chained hash
from the fully origin-signed transaction and fills the sponsor condition's
signature field. -/
def signSponsorModel (tx : Transaction) (privKey : String) : Transaction :=
  let sig := signWithKey privKey ("sponsor-presign:" ++ serializeTransaction tx)
  match tx.auth with
  | .standard o => { tx with auth := .standard o }
  | .sponsored o sp => { tx with auth := .sponsored o (sp.applyField (.sig sig)) }

/-- `SponsorOptionsOpts` (part_003). -/
structure SponsorOptions where
  transaction : Transaction
  sponsorPrivateKey : String
  fee : Option Nat := Option.none
  sponsorNonce : Option Nat := Option.none
  sponsorAddressHashmode : AddressHashMode := .p2pkh
  network : Option FunaiNetwork := Option.none

/-- `deriveNetworkFromTx` (src transaction module caller): pick the default
network from the transaction's version. -/
def deriveNetworkFromTx (tx : Transaction) : FunaiNetwork :=
  if tx.transactionVersion = FUNAI_MAINNET.transactionVersion then FUNAI_MAINNET
  else FUNAI_TESTNET

/-- `sponsorTransaction` (part_003 lines 828-888): when the caller omitted the
fee, only the four supported payload types reach fee estimation — any other
payload type throws before a sponsor condition is attached or a sponsor
signature is computed; then an omitted sponsor nonce is looked up, the sponsor
condition is created and attached, and the sponsor signs. -/
def sponsorTransaction (env : Env) (o : SponsorOptions) :
    Except Err Transaction × List Effect :=
  let network := o.network.getD (deriveNetworkFromTx o.transaction)
  let sponsorPubKey := privateKeyToPublic o.sponsorPrivateKey
  match (match o.fee with
    | Option.some f => Except.ok (f, o.transaction, ([] : List Effect))
    | Option.none =>
      match o.transaction.payload.payloadType with
      | .tokenTransfer | .smartContract | .versionedSmartContract | .contractCall =>
        let txFee := env.feeEstimate o.transaction
        Except.ok (txFee, o.transaction.setFee txFee,
          [Effect.feeEstimateCall o.transaction])
      | _ => Except.error Err.sponsoredTypeNotSupported) with
  | .error e => (.error e, [])
  | .ok (txFee, tx1, eff1) =>
    let nonceStep : Nat × List Effect :=
      match o.sponsorNonce with
      | Option.some n => (n, [])
      | Option.none =>
        let address := publicKeyToAddress network.addressVersionSingleSig sponsorPubKey
        (env.nonceLookup address, [Effect.nonceLookupCall address])
    let sponsorSpendingCondition := createSingleSigSpendingCondition
      o.sponsorAddressHashmode sponsorPubKey nonceStep.1 txFee
    match tx1.setSponsor sponsorSpendingCondition with
    | .error e => (.error e, eff1 ++ nonceStep.2)
    | .ok tx2 =>
      (.ok (signSponsorModel tx2 o.sponsorPrivateKey),
        eff1 ++ nonceStep.2 ++
          [Effect.setSponsorEff, Effect.signSponsorEff o.sponsorPrivateKey])

/-! ## Claim C1: multi-sig infer / register-model attempts are rejected -/

/-- C1: every attempt to build a multi-sig infer-task or register-model
transaction fails explicitly with the `UnsupportedMultiSig` capability-gap
error, with no collaborator call or signature computed (empty effect list)
and no transaction returned.  The unsigned builders construct the payload
first, so their statements assume the payload's construction-time validation
passes (it always does for realizable string lengths); the signed builders
reject before anything else, unconditionally. -/
theorem claim_C1_multisig_infer_register_rejected :
    (∀ (env : Env) (o : InferOptions) (n : Nat) (pks : List String)
        (addr : Option String) (nonSeq : Bool),
      (createInferPayload o.inferUserAddress o.amount o.userInput o.context
        nullPrincipal o.modelName).isOk = true →
      makeUnsignedInfer env o (.multi n pks addr nonSeq) =
        (.error (.unsupportedMultiSig "Multi-sig infer not yet implemented"), [])) ∧
    (∀ (env : Env) (o : InferOptions) (n : Nat) (pks : List String)
        (addr : Option String) (nonSeq : Bool) (sks : List String),
      makeInfer env o (.multi n pks addr nonSeq sks) =
        (.error (.unsupportedMultiSig "Multi-sig infer not yet implemented"), [])) ∧
    (∀ (env : Env) (o : RegisterModelOptions) (n : Nat) (pks : List String)
        (addr : Option String) (nonSeq : Bool),
      (createRegisterModelPayload o.modelName o.modelParams).isOk = true →
      makeUnsignedRegisterModel env o (.multi n pks addr nonSeq) =
        (.error (.unsupportedMultiSig "Multi-sig register-model not yet implemented"), [])) ∧
    (∀ (env : Env) (o : RegisterModelOptions) (n : Nat) (pks : List String)
        (addr : Option String) (nonSeq : Bool) (sks : List String),
      makeRegisterModel env o (.multi n pks addr nonSeq sks) =
        (.error (.unsupportedMultiSig "Multi-sig register-model not yet implemented"), [])) := by
  refine ⟨?_, ?_, ?_, ?_⟩
  · intro env o n pks addr nonSeq hok
    unfold makeUnsignedInfer
    rcases hp : createInferPayload o.inferUserAddress o.amount o.userInput o.context
        nullPrincipal o.modelName with e | payload
    · rw [hp] at hok; simp [Except.isOk, Except.toBool] at hok
    · rfl
  · intro env o n pks addr nonSeq sks
    rfl
  · intro env o n pks addr nonSeq hok
    unfold makeUnsignedRegisterModel
    rcases hp : createRegisterModelPayload o.modelName o.modelParams with e | payload
    · rw [hp] at hok; simp [Except.isOk, Except.toBool] at hok
    · rfl
  · intro env o n pks addr nonSeq sks
    rfl

/-- Witness for C1 at concrete multi-sig options. -/
theorem claim_C1_multisig_infer_register_rejected_witness :
    makeUnsignedInfer ⟨fun _ => 7, fun _ => 42⟩
      { inferUserAddress := "SPUSER", amount := 100, userInput := "in",
        context := "ctx", modelName := "m" } (.multi 2 ["pk1", "pk2"] Option.none false) =
      (.error (.unsupportedMultiSig "Multi-sig infer not yet implemented"), []) ∧
    makeRegisterModel ⟨fun _ => 7, fun _ => 42⟩
      { modelName := "m", modelParams := "p" }
      (.multi 2 ["pk1", "pk2"] Option.none false ["k1"]) =
      (.error (.unsupportedMultiSig "Multi-sig register-model not yet implemented"), []) :=
  ⟨claim_C1_multisig_infer_register_rejected.1 _ _ 2 ["pk1", "pk2"] Option.none false rfl,
   claim_C1_multisig_infer_register_rejected.2.2.2 _ _ 2 ["pk1", "pk2"] Option.none false ["k1"]⟩

/-! ## Claim C2: multi-sig address order resolution -/

theorem charListLe_trans : ∀ {a b c : List Char},
    charListLe a b = true → charListLe b c = true → charListLe a c = true := by
  intro a
  induction a with
  | nil => intro b c _ _; rfl
  | cons x xs ih =>
    intro b c h1 h2
    cases b with
    | nil => simp [charListLe] at h1
    | cons y ys =>
      cases c with
      | nil => simp [charListLe] at h2
      | cons z zs =>
        rw [charListLe] at h1 h2 ⊢
        by_cases hxy : x.toNat < y.toNat
        · by_cases hyz : y.toNat < z.toNat
          · rw [if_pos (by omega)]
          · rw [if_neg hyz] at h2
            by_cases hzy : z.toNat < y.toNat
            · rw [if_pos hzy] at h2; exact absurd h2 (by simp)
            · rw [if_pos (by omega)]
        · rw [if_neg hxy] at h1
          by_cases hyx : y.toNat < x.toNat
          · rw [if_pos hyx] at h1; exact absurd h1 (by simp)
          · rw [if_neg hyx] at h1
            by_cases hyz : y.toNat < z.toNat
            · rw [if_pos (by omega)]
            · rw [if_neg hyz] at h2
              by_cases hzy : z.toNat < y.toNat
              · rw [if_pos hzy] at h2; exact absurd h2 (by simp)
              · rw [if_neg hzy] at h2
                rw [if_neg (by omega), if_neg (by omega)]
                exact ih h1 h2

theorem charListLe_total : ∀ (a b : List Char),
    charListLe a b = true ∨ charListLe b a = true := by
  intro a
  induction a with
  | nil => intro b; left; rfl
  | cons x xs ih =>
    intro b
    cases b with
    | nil => right; rfl
    | cons y ys =>
      rw [charListLe, charListLe]
      by_cases hxy : x.toNat < y.toNat
      · left; rw [if_pos hxy]
      · by_cases hyx : y.toNat < x.toNat
        · right; rw [if_pos hyx]
        · rw [if_neg hxy, if_neg hyx, if_neg hyx, if_neg hxy]
          exact ih ys

theorem strLe_trans {a b c : String} (h1 : strLe a b = true) (h2 : strLe b c = true) :
    strLe a c = true := charListLe_trans h1 h2

theorem strLe_total (a b : String) : strLe a b = true ∨ strLe b a = true :=
  charListLe_total a.data b.data

theorem mem_insertSorted (x b : String) (l : List String) :
    b ∈ insertSorted x l ↔ b = x ∨ b ∈ l := by
  induction l with
  | nil => simp [insertSorted]
  | cons y ys ih =>
    rw [insertSorted]
    split
    · simp [List.mem_cons]
    · simp only [List.mem_cons, ih]
      tauto

/-- Insertion into a pairwise-ascending list keeps it pairwise ascending. -/
theorem pairwise_insertSorted (x : String) (l : List String)
    (h : List.Pairwise (fun a b => strLe a b = true) l) :
    List.Pairwise (fun a b => strLe a b = true) (insertSorted x l) := by
  induction l with
  | nil => simp [insertSorted]
  | cons y ys ih =>
    rw [List.pairwise_cons] at h
    rw [insertSorted]
    split
    · next hxy =>
      refine List.pairwise_cons.mpr ⟨?_, List.pairwise_cons.mpr h⟩
      intro b hb
      rcases List.mem_cons.mp hb with rfl | hb2
      · exact hxy
      · exact strLe_trans hxy (h.1 b hb2)
    · next hxy =>
      have hyx : strLe y x = true := by
        rcases strLe_total x y with hx | hy
        · exact absurd hx hxy
        · exact hy
      refine List.pairwise_cons.mpr ⟨?_, ih h.2⟩
      intro b hb
      rcases (mem_insertSorted x b ys).mp hb with rfl | hb2
      · exact hyx
      · exact h.1 b hb2

/-- The source's key sort produces an ascending-by-byte-value sequence. -/
theorem pairwise_sortStrings (l : List String) :
    List.Pairwise (fun a b => strLe a b = true) (sortStrings l) := by
  induction l with
  | nil => simp [sortStrings]
  | cons x xs ih => exact pairwise_insertSorted x _ ih

/-- C2: multi-sig address order resolution — the as-given order is returned
when hashing the keys as given reproduces the target hash; otherwise the
ascending-by-byte-value sorted order is returned when its hash reproduces the
target (and that order is pairwise ascending); otherwise the resolution fails
with `AddressKeyMismatch` and returns no order. -/
theorem claim_C2_sortPublicKeysForAddress (publicKeys : List String) (numSigs : Nat)
    (hashMode : AddressHashMode) (hash : String) :
    (addressFromPublicKeysHash160 hashMode numSigs publicKeys = hash →
      sortPublicKeysForAddress publicKeys numSigs hashMode hash = .ok publicKeys) ∧
    (addressFromPublicKeysHash160 hashMode numSigs publicKeys ≠ hash →
      addressFromPublicKeysHash160 hashMode numSigs (sortStrings publicKeys) = hash →
      sortPublicKeysForAddress publicKeys numSigs hashMode hash =
          .ok (sortStrings publicKeys) ∧
        List.Pairwise (fun a b => strLe a b = true) (sortStrings publicKeys)) ∧
    (addressFromPublicKeysHash160 hashMode numSigs publicKeys ≠ hash →
      addressFromPublicKeysHash160 hashMode numSigs (sortStrings publicKeys) ≠ hash →
      sortPublicKeysForAddress publicKeys numSigs hashMode hash =
        .error .addressKeyMismatch) := by
  refine ⟨?_, ?_, ?_⟩
  · intro h1
    unfold sortPublicKeysForAddress
    rw [if_pos h1]
  · intro h1 h2
    refine ⟨?_, pairwise_sortStrings publicKeys⟩
    unfold sortPublicKeysForAddress
    rw [if_neg h1, if_pos h2]
  · intro h1 h2
    unfold sortPublicKeysForAddress
    rw [if_neg h1, if_neg h2]

/-- Witness for C2: a two-key set whose as-given hash differs from the target
while the sorted order's hash matches. -/
theorem claim_C2_sortPublicKeysForAddress_witness :
    sortPublicKeysForAddress ["0b", "0a"] 2 .p2sh
        (addressFromPublicKeysHash160 .p2sh 2 ["0a", "0b"]) =
      .ok (sortStrings ["0b", "0a"]) ∧
    List.Pairwise (fun a b => strLe a b = true) (sortStrings ["0b", "0a"]) :=
  (claim_C2_sortPublicKeysForAddress ["0b", "0a"] 2 .p2sh
    (addressFromPublicKeysHash160 .p2sh 2 ["0a", "0b"])).2.1 (by decide) (by decide)

/-! ## Claim C3: fee/nonce collaborators run exactly when fee/nonce omitted -/

theorem setFee_originNonce (tx : Transaction) (f : Nat) :
    (tx.setFee f).originNonce = tx.originNonce := by
  obtain ⟨v, c, auth, p, m, pcs⟩ := tx
  cases auth with
  | standard o => cases o <;> rfl
  | sponsored o sp => cases o <;> cases sp <;> rfl

theorem setFee_originSigner (tx : Transaction) (f : Nat) :
    (tx.setFee f).auth.originCondition.signer = tx.auth.originCondition.signer := by
  obtain ⟨v, c, auth, p, m, pcs⟩ := tx
  cases auth with
  | standard o => cases o <;> rfl
  | sponsored o sp => cases o <;> cases sp <;> rfl

theorem setFee_feeTarget (tx : Transaction) (f : Nat) :
    (tx.setFee f).feeTarget = f := by
  obtain ⟨v, c, auth, p, m, pcs⟩ := tx
  cases auth with
  | standard o => cases o <;> rfl
  | sponsored o sp => cases o <;> cases sp <;> rfl

theorem setNonce_originNonce (tx : Transaction) (n : Nat) :
    (tx.setNonce n).originNonce = n := by
  obtain ⟨v, c, auth, p, m, pcs⟩ := tx
  cases auth with
  | standard o => cases o <;> rfl
  | sponsored o sp => cases o <;> cases sp <;> rfl

theorem setNonce_originFee (tx : Transaction) (n : Nat) :
    (tx.setNonce n).originFee = tx.originFee := by
  obtain ⟨v, c, auth, p, m, pcs⟩ := tx
  cases auth with
  | standard o => cases o <;> rfl
  | sponsored o sp => cases o <;> cases sp <;> rfl

theorem setNonce_feeTarget (tx : Transaction) (n : Nat) :
    (tx.setNonce n).feeTarget = tx.feeTarget := by
  obtain ⟨v, c, auth, p, m, pcs⟩ := tx
  cases auth with
  | standard o => cases o <;> rfl
  | sponsored o sp => cases o <;> cases sp <;> rfl

/-- What the shared finalization step guarantees: each collaborator runs
exactly when its value was omitted; an explicit value (zero included) leaves
the originally recorded value untouched; an omitted value is replaced by the
collaborator's result (the fee on the condition `setFee` targets, the nonce on
the origin condition), and the nonce lookup is keyed by the c32 rendering of
the origin signer under the network's single-sig address version. -/
theorem finalizeFeeNonce_spec (env : Env) (feeOpt nonceOpt : Option Nat)
    (net : FunaiNetwork) (tx : Transaction) :
    (feeOpt.isSome = true →
      (finalizeFeeNonce env feeOpt nonceOpt net tx).1.originFee = tx.originFee ∧
      ∀ t, Effect.feeEstimateCall t ∉ (finalizeFeeNonce env feeOpt nonceOpt net tx).2) ∧
    (feeOpt = Option.none →
      (finalizeFeeNonce env feeOpt nonceOpt net tx).1.feeTarget = env.feeEstimate tx ∧
      Effect.feeEstimateCall tx ∈ (finalizeFeeNonce env feeOpt nonceOpt net tx).2) ∧
    (nonceOpt.isSome = true →
      (finalizeFeeNonce env feeOpt nonceOpt net tx).1.originNonce = tx.originNonce ∧
      ∀ a, Effect.nonceLookupCall a ∉ (finalizeFeeNonce env feeOpt nonceOpt net tx).2) ∧
    (nonceOpt = Option.none →
      (finalizeFeeNonce env feeOpt nonceOpt net tx).1.originNonce =
        env.nonceLookup (c32address net.addressVersionSingleSig
          tx.auth.originCondition.signer) ∧
      Effect.nonceLookupCall (c32address net.addressVersionSingleSig
        tx.auth.originCondition.signer) ∈
        (finalizeFeeNonce env feeOpt nonceOpt net tx).2) := by
  rcases feeOpt with _ | f <;> rcases nonceOpt with _ | n <;>
    simp [finalizeFeeNonce, setFee_originNonce, setFee_originSigner, setFee_feeTarget,
      setNonce_originNonce, setNonce_originFee, setNonce_feeTarget]

/-- The fee/nonce collaborator contract of one builder run (claim C3): each
collaborator is called exactly when the caller omitted its value; an explicit
value (zero included) is kept as recorded at construction and triggers no
call; an omitted value is filled from the collaborator's result before the
builder returns. -/
def FeeNonceContract (env : Env) (feeOpt nonceOpt : Option Nat)
    (result : Except Err Transaction × List Effect) : Prop :=
  ∀ tx, result.1 = .ok tx →
    ((∀ f, feeOpt = Option.some f → tx.originFee = f ∧
        ∀ t, Effect.feeEstimateCall t ∉ result.2) ∧
     (feeOpt = Option.none → ∃ t, Effect.feeEstimateCall t ∈ result.2 ∧
        tx.feeTarget = env.feeEstimate t) ∧
     (∀ n, nonceOpt = Option.some n → tx.originNonce = n ∧
        ∀ a, Effect.nonceLookupCall a ∉ result.2) ∧
     (nonceOpt = Option.none → ∃ a, Effect.nonceLookupCall a ∈ result.2 ∧
        tx.originNonce = env.nonceLookup a))

theorem originCondition_mkAuth (b : Bool) (sc : SpendingCondition) :
    (if b then createSponsoredAuth sc else createStandardAuth sc).originCondition = sc := by
  cases b <;> rfl

theorem buildSpendingCondition_ok (signer : UnsignedSigner) (n f : Nat)
    (sc : SpendingCondition) (h : buildSpendingCondition signer n f = .ok sc) :
    sc.fee = f ∧ sc.nonce = n := by
  cases signer with
  | single pk =>
    unfold buildSpendingCondition at h
    obtain rfl : createSingleSigSpendingCondition .p2pkh pk n f = sc := by
      simpa using h
    exact ⟨rfl, rfl⟩
  | multi nn pks addr nonSeq =>
    unfold buildSpendingCondition at h
    rcases addr with _ | a
    · obtain rfl : createMultiSigSpendingCondition
          (if nonSeq then AddressHashMode.p2shNonSequential else AddressHashMode.p2sh)
          nn pks n f = sc := by simpa using h
      exact ⟨rfl, rfl⟩
    · dsimp only at h
      rcases hs : sortPublicKeysForAddress pks nn
          (if nonSeq then AddressHashMode.p2shNonSequential else AddressHashMode.p2sh)
          (createAddressHash160 a) with e | pubs <;> rw [hs] at h
      · simp at h
      · obtain rfl : createMultiSigSpendingCondition
            (if nonSeq then AddressHashMode.p2shNonSequential else AddressHashMode.p2sh)
            nn pubs n f = sc := by simpa using h
        exact ⟨rfl, rfl⟩

/-- The shared tail satisfies the fee/nonce contract whenever the spending
condition records the defaulted fee/nonce (as every builder constructs it). -/
theorem assembleAndFinalize_contract (env : Env) (feeOpt nonceOpt : Option Nat)
    (net : FunaiNetwork) (sponsored : Bool) (payload : Payload) (pcm : Nat)
    (pcs : List PostConditionW) (sc : SpendingCondition)
    (hf : sc.fee = feeOpt.getD 0) (hn : sc.nonce = nonceOpt.getD 0) :
    FeeNonceContract env feeOpt nonceOpt
      (assembleAndFinalize env feeOpt nonceOpt net sponsored payload pcm pcs sc) := by
  intro tx htx
  set tx0 : Transaction := {
    transactionVersion := net.transactionVersion
    chainId := net.chainId
    auth := if sponsored then createSponsoredAuth sc else createStandardAuth sc
    payload := payload
    postConditionMode := pcm
    postConditions := pcs } with htx0
  have hfee0 : tx0.originFee = feeOpt.getD 0 := by
    rw [htx0]
    show (if sponsored then createSponsoredAuth sc
      else createStandardAuth sc).originCondition.fee = feeOpt.getD 0
    rw [originCondition_mkAuth, hf]
  have hnonce0 : tx0.originNonce = nonceOpt.getD 0 := by
    rw [htx0]
    show (if sponsored then createSponsoredAuth sc
      else createStandardAuth sc).originCondition.nonce = nonceOpt.getD 0
    rw [originCondition_mkAuth, hn]
  obtain rfl : (finalizeFeeNonce env feeOpt nonceOpt net tx0).1 = tx := by
    simpa [assembleAndFinalize] using htx
  obtain ⟨s1, s2, s3, s4⟩ := finalizeFeeNonce_spec env feeOpt nonceOpt net tx0
  have heff : (assembleAndFinalize env feeOpt nonceOpt net sponsored payload pcm pcs sc).2
      = (finalizeFeeNonce env feeOpt nonceOpt net tx0).2 := rfl
  rw [heff]
  refine ⟨?_, ?_, ?_, ?_⟩
  · intro f hfeq
    obtain ⟨h1, h2⟩ := s1 (by rw [hfeq]; rfl)
    refine ⟨?_, h2⟩
    rw [h1, hfee0, hfeq]
    rfl
  · intro hfeq
    obtain ⟨h1, h2⟩ := s2 hfeq
    exact ⟨tx0, h2, h1⟩
  · intro n hneq
    obtain ⟨h1, h2⟩ := s3 (by rw [hneq]; rfl)
    refine ⟨?_, h2⟩
    rw [h1, hnonce0, hneq]
    rfl
  · intro hneq
    obtain ⟨h1, h2⟩ := s4 hneq
    exact ⟨_, h2, h1⟩

/-- C3: for every transaction-building call (token transfer, contract deploy,
contract call, infer, register-model), the fee-estimation and nonce-lookup
collaborators are invoked exactly when the caller omitted the fee
(respectively the nonce); a caller-supplied explicit fee of 0 or nonce of 0 is
kept as-is with no collaborator call, and an omitted value is filled from the
collaborator's result on the returned (not yet signed) transaction. -/
theorem claim_C3_fee_nonce_collaborators :
    (∀ (env : Env) (o : TokenTransferOptions) (signer : UnsignedSigner),
      FeeNonceContract env o.fee o.nonce (makeUnsignedFunaiTokenTransfer env o signer)) ∧
    (∀ (env : Env) (o : ContractDeployOptions) (signer : UnsignedSigner),
      FeeNonceContract env o.fee o.nonce (makeUnsignedContractDeploy env o signer)) ∧
    (∀ (env : Env) (o : ContractCallOptions) (signer : UnsignedSigner),
      FeeNonceContract env o.fee o.nonce (makeUnsignedContractCall env o signer)) ∧
    (∀ (env : Env) (o : InferOptions) (signer : UnsignedSigner),
      FeeNonceContract env o.fee o.nonce (makeUnsignedInfer env o signer)) ∧
    (∀ (env : Env) (o : RegisterModelOptions) (signer : UnsignedSigner),
      FeeNonceContract env o.fee o.nonce (makeUnsignedRegisterModel env o signer)) := by
  refine ⟨?_, ?_, ?_, ?_, ?_⟩
  · intro env o signer
    unfold makeUnsignedFunaiTokenTransfer
    rcases hp : createTokenTransferPayload o.recipient o.amount o.memo with e | payload
    · intro tx htx; simp at htx
    · rcases hsc : buildSpendingCondition signer (o.nonce.getD 0) (o.fee.getD 0)
        with e | sc
      · intro tx htx; simp at htx
      · exact assembleAndFinalize_contract env o.fee o.nonce o.network o.sponsored
          payload pcmDeny [] sc (buildSpendingCondition_ok _ _ _ _ hsc).1
          (buildSpendingCondition_ok _ _ _ _ hsc).2
  · intro env o signer
    unfold makeUnsignedContractDeploy
    rcases hp : createSmartContractPayload o.contractName o.codeBody
        (Option.some o.clarityVersion) with e | payload
    · intro tx htx; simp at htx
    · rcases hsc : buildSpendingCondition signer (o.nonce.getD 0) (o.fee.getD 0)
        with e | sc
      · intro tx htx; simp at htx
      · exact assembleAndFinalize_contract env o.fee o.nonce o.network o.sponsored
          payload o.postConditionMode o.postConditions sc
          (buildSpendingCondition_ok _ _ _ _ hsc).1
          (buildSpendingCondition_ok _ _ _ _ hsc).2
  · intro env o signer
    unfold makeUnsignedContractCall
    rcases hp : createContractCallPayload o.contractAddress o.contractName
        o.functionName o.functionArgs with e | payload
    · intro tx htx; simp at htx
    · rcases hsc : buildSpendingCondition signer (o.nonce.getD 0) (o.fee.getD 0)
        with e | sc
      · intro tx htx; simp at htx
      · exact assembleAndFinalize_contract env o.fee o.nonce o.network o.sponsored
          payload o.postConditionMode o.postConditions sc
          (buildSpendingCondition_ok _ _ _ _ hsc).1
          (buildSpendingCondition_ok _ _ _ _ hsc).2
  · intro env o signer
    unfold makeUnsignedInfer
    rcases hp : createInferPayload o.inferUserAddress o.amount o.userInput o.context
        nullPrincipal o.modelName with e | payload
    · intro tx htx; simp at htx
    · cases signer with
      | multi n pks addr nonSeq => intro tx htx; simp at htx
      | single publicKey =>
        exact assembleAndFinalize_contract env o.fee o.nonce o.network o.sponsored
          payload pcmDeny [] _ rfl rfl
  · intro env o signer
    unfold makeUnsignedRegisterModel
    rcases hp : createRegisterModelPayload o.modelName o.modelParams with e | payload
    · intro tx htx; simp at htx
    · cases signer with
      | multi n pks addr nonSeq => intro tx htx; simp at htx
      | single publicKey =>
        exact assembleAndFinalize_contract env o.fee o.nonce o.network o.sponsored
          payload pcmDeny [] _ rfl rfl

/-- Witness for C3: a token transfer with an explicit zero fee and omitted
nonce — the explicit zero is kept with no fee-estimation call, and the nonce
collaborator's result lands on the transaction. -/
theorem claim_C3_fee_nonce_collaborators_witness :
    ∀ tx, (makeUnsignedFunaiTokenTransfer ⟨fun _ => 7, fun _ => 42⟩
        { recipient := "SPRCPT", amount := 100, fee := Option.some 0 }
        (.single "pk1")).1 = .ok tx →
      (tx.originFee = 0 ∧ ∀ t, Effect.feeEstimateCall t ∉
        (makeUnsignedFunaiTokenTransfer ⟨fun _ => 7, fun _ => 42⟩
          { recipient := "SPRCPT", amount := 100, fee := Option.some 0 }
          (.single "pk1")).2) ∧
      ∃ a, Effect.nonceLookupCall a ∈
        (makeUnsignedFunaiTokenTransfer ⟨fun _ => 7, fun _ => 42⟩
          { recipient := "SPRCPT", amount := 100, fee := Option.some 0 }
          (.single "pk1")).2 ∧
        tx.originNonce = (fun _ => 42 : String → Nat) a := by
  intro tx htx
  obtain ⟨c1, c2, c3, c4⟩ := claim_C3_fee_nonce_collaborators.1
    ⟨fun _ => 7, fun _ => 42⟩
    { recipient := "SPRCPT", amount := 100, fee := Option.some 0 }
    (.single "pk1") tx htx
  exact ⟨c1 0 rfl, c4 rfl⟩

/-! ## Claim C4: the nonce-lookup address (corrected) -/

theorem setNonce_originSigner (tx : Transaction) (n : Nat) :
    (tx.setNonce n).auth.originCondition.signer = tx.auth.originCondition.signer := by
  obtain ⟨v, c, auth, p, m, pcs⟩ := tx
  cases auth with
  | standard o => cases o <;> rfl
  | sponsored o sp => cases o <;> cases sp <;> rfl

/-- The nonce-address contract (claim C4 as amended): when the caller omits
the nonce, the nonce collaborator is keyed by the c32 rendering of the origin
signer hash160 under the network's SINGLE-sig address version — for single-
and multi-sig spending conditions alike — and its result becomes the origin
nonce. -/
def NonceAddressContract (env : Env) (nonceOpt : Option Nat) (net : FunaiNetwork)
    (result : Except Err Transaction × List Effect) : Prop :=
  ∀ tx, result.1 = .ok tx → nonceOpt = Option.none →
    Effect.nonceLookupCall
        (c32address net.addressVersionSingleSig tx.auth.originCondition.signer) ∈
      result.2 ∧
    tx.originNonce = env.nonceLookup
      (c32address net.addressVersionSingleSig tx.auth.originCondition.signer)

theorem assembleAndFinalize_nonceAddress (env : Env) (feeOpt nonceOpt : Option Nat)
    (net : FunaiNetwork) (sponsored : Bool) (payload : Payload) (pcm : Nat)
    (pcs : List PostConditionW) (sc : SpendingCondition) :
    NonceAddressContract env nonceOpt net
      (assembleAndFinalize env feeOpt nonceOpt net sponsored payload pcm pcs sc) := by
  intro tx htx hn
  set tx0 : Transaction := {
    transactionVersion := net.transactionVersion
    chainId := net.chainId
    auth := if sponsored then createSponsoredAuth sc else createStandardAuth sc
    payload := payload
    postConditionMode := pcm
    postConditions := pcs } with htx0
  obtain rfl : (finalizeFeeNonce env feeOpt nonceOpt net tx0).1 = tx := by
    simpa [assembleAndFinalize] using htx
  have heff : (assembleAndFinalize env feeOpt nonceOpt net sponsored payload pcm pcs sc).2
      = (finalizeFeeNonce env feeOpt nonceOpt net tx0).2 := rfl
  have hsig : (finalizeFeeNonce env feeOpt nonceOpt net tx0).1.auth.originCondition.signer
      = tx0.auth.originCondition.signer := by
    rcases feeOpt with _ | f <;> rcases nonceOpt with _ | n <;>
      simp [finalizeFeeNonce, setFee_originSigner, setNonce_originSigner]
  obtain ⟨-, -, -, s4⟩ := finalizeFeeNonce_spec env feeOpt nonceOpt net tx0
  obtain ⟨h1, h2⟩ := s4 hn
  rw [heff, hsig]
  exact ⟨h2, h1⟩

/-- C4 (amended): for every transaction-building call where the caller
omitted the nonce, the nonce-lookup collaborator is invoked with the origin
address derived from the origin spending condition's signer hash160 using the
network's single-sig address version — regardless of whether the spending
condition is single- or multi-sig — and its result becomes the transaction's
nonce. -/
theorem claim_C4_nonce_lookup_address :
    (∀ (env : Env) (o : TokenTransferOptions) (signer : UnsignedSigner),
      NonceAddressContract env o.nonce o.network
        (makeUnsignedFunaiTokenTransfer env o signer)) ∧
    (∀ (env : Env) (o : ContractDeployOptions) (signer : UnsignedSigner),
      NonceAddressContract env o.nonce o.network
        (makeUnsignedContractDeploy env o signer)) ∧
    (∀ (env : Env) (o : ContractCallOptions) (signer : UnsignedSigner),
      NonceAddressContract env o.nonce o.network
        (makeUnsignedContractCall env o signer)) ∧
    (∀ (env : Env) (o : InferOptions) (signer : UnsignedSigner),
      NonceAddressContract env o.nonce o.network (makeUnsignedInfer env o signer)) ∧
    (∀ (env : Env) (o : RegisterModelOptions) (signer : UnsignedSigner),
      NonceAddressContract env o.nonce o.network
        (makeUnsignedRegisterModel env o signer)) := by
  refine ⟨?_, ?_, ?_, ?_, ?_⟩
  · intro env o signer
    unfold makeUnsignedFunaiTokenTransfer
    rcases hp : createTokenTransferPayload o.recipient o.amount o.memo with e | payload
    · intro tx htx; simp at htx
    · rcases hsc : buildSpendingCondition signer (o.nonce.getD 0) (o.fee.getD 0)
        with e | sc
      · intro tx htx; simp at htx
      · exact assembleAndFinalize_nonceAddress env o.fee o.nonce o.network o.sponsored
          payload pcmDeny [] sc
  · intro env o signer
    unfold makeUnsignedContractDeploy
    rcases hp : createSmartContractPayload o.contractName o.codeBody
        (Option.some o.clarityVersion) with e | payload
    · intro tx htx; simp at htx
    · rcases hsc : buildSpendingCondition signer (o.nonce.getD 0) (o.fee.getD 0)
        with e | sc
      · intro tx htx; simp at htx
      · exact assembleAndFinalize_nonceAddress env o.fee o.nonce o.network o.sponsored
          payload o.postConditionMode o.postConditions sc
  · intro env o signer
    unfold makeUnsignedContractCall
    rcases hp : createContractCallPayload o.contractAddress o.contractName
        o.functionName o.functionArgs with e | payload
    · intro tx htx; simp at htx
    · rcases hsc : buildSpendingCondition signer (o.nonce.getD 0) (o.fee.getD 0)
        with e | sc
      · intro tx htx; simp at htx
      · exact assembleAndFinalize_nonceAddress env o.fee o.nonce o.network o.sponsored
          payload o.postConditionMode o.postConditions sc
  · intro env o signer
    unfold makeUnsignedInfer
    rcases hp : createInferPayload o.inferUserAddress o.amount o.userInput o.context
        nullPrincipal o.modelName with e | payload
    · intro tx htx; simp at htx
    · cases signer with
      | multi n pks addr nonSeq => intro tx htx; simp at htx
      | single publicKey =>
        exact assembleAndFinalize_nonceAddress env o.fee o.nonce o.network o.sponsored
          payload pcmDeny [] _
  · intro env o signer
    unfold makeUnsignedRegisterModel
    rcases hp : createRegisterModelPayload o.modelName o.modelParams with e | payload
    · intro tx htx; simp at htx
    · cases signer with
      | multi n pks addr nonSeq => intro tx htx; simp at htx
      | single publicKey =>
        exact assembleAndFinalize_nonceAddress env o.fee o.nonce o.network o.sponsored
          payload pcmDeny [] _

/-- Witness for the amended C4 at a concrete multi-sig transfer with the
nonce omitted. -/
theorem claim_C4_nonce_lookup_address_witness :
    ∀ tx, (makeUnsignedFunaiTokenTransfer ⟨fun _ => 7, fun _ => 42⟩
        { recipient := "SPRCPT", amount := 100, fee := Option.some 5 }
        (.multi 2 ["k1", "k2"] Option.none false)).1 = .ok tx →
      Effect.nonceLookupCall (c32address FUNAI_MAINNET.addressVersionSingleSig
          tx.auth.originCondition.signer) ∈
        (makeUnsignedFunaiTokenTransfer ⟨fun _ => 7, fun _ => 42⟩
          { recipient := "SPRCPT", amount := 100, fee := Option.some 5 }
          (.multi 2 ["k1", "k2"] Option.none false)).2 ∧
      tx.originNonce = (fun _ => 42 : String → Nat)
        (c32address FUNAI_MAINNET.addressVersionSingleSig
          tx.auth.originCondition.signer) := by
  intro tx htx
  exact claim_C4_nonce_lookup_address.1 ⟨fun _ => 7, fun _ => 42⟩
    { recipient := "SPRCPT", amount := 100, fee := Option.some 5 }
    (.multi 2 ["k1", "k2"] Option.none false) tx htx rfl

/-- Counterexample to C4 as stated: for a multi-sig token transfer with the
nonce omitted, on a network whose single-sig address version (22) differs
from its multi-sig address version (20; the network record lists chain id,
transaction version, peer network id, magic bytes, boot address, single-sig
address version, multi-sig address version, base url), the nonce collaborator
is invoked
with the address rendered under the SINGLE-sig version — not the version
matching the (multi-sig) spending condition — and the two renderings
differ. -/
theorem claim_C4_counterexample :
    (makeUnsignedFunaiTokenTransfer ⟨fun _ => 7, fun _ => 42⟩
        { recipient := "SPRCPT", amount := 100, fee := Option.some 5,
          network := ⟨1, 0, 0, "X2", "SP0", 22, 20, "u"⟩ }
        (.multi 2 ["k1", "k2"] Option.none false)).2 =
      [Effect.nonceLookupCall (c32address 22
        (addressFromPublicKeysHash160 .p2sh 2 ["k1", "k2"]))] ∧
    c32address 22 (addressFromPublicKeysHash160 .p2sh 2 ["k1", "k2"]) ≠
      c32address 20 (addressFromPublicKeysHash160 .p2sh 2 ["k1", "k2"]) :=
  ⟨rfl, by decide⟩

/-! ## Claim C5: multi-sig field append order and shape -/

/-- The per-position shape claim C5 asserts: a position whose public key has a
matching supplied private key carries a message signature; a position without
one carries exactly that raw public key. -/
def signedFieldRel (signerKeys : List String) (pk : String) (fld : AuthFieldW) : Prop :=
  match signerKeys.find? (fun key => privateKeyToPublic key == pk) with
  | Option.some _ => ∃ sg, fld = AuthFieldW.sig sg
  | Option.none => fld = AuthFieldW.pubkey pk

theorem applyOriginField_multi (tx : Transaction) (c : MultiSigSC) (f : AuthFieldW)
    (h : tx.auth.originCondition = .multi c) :
    (tx.applyOriginField f).auth.originCondition =
      .multi { c with fields := c.fields ++ [f] } := by
  obtain ⟨v, ch, auth, p, m, pcs⟩ := tx
  cases auth with
  | standard o =>
    simp only [Authorization.originCondition] at h
    subst h
    rfl
  | sponsored o sp =>
    simp only [Authorization.originCondition] at h
    subst h
    rfl

/-- Walking the resolved public keys appends one field per key, in order,
each of the shape `signedFieldRel` describes. -/
theorem foldSign_fields (signerKeys : List String) : ∀ (pubs : List String)
    (st : SignerState) (c : MultiSigSC),
    st.transaction.auth.originCondition = .multi c →
    ∃ l, (pubs.foldl (signStep signerKeys) st).transaction.auth.originCondition =
        .multi { c with fields := c.fields ++ l } ∧
      List.Forall₂ (signedFieldRel signerKeys) pubs l := by
  intro pubs
  induction pubs with
  | nil =>
    intro st c h
    refine ⟨[], ?_, List.Forall₂.nil⟩
    simpa using h
  | cons pk pubs ih =>
    intro st c h
    rw [List.foldl_cons]
    rcases hf : signerKeys.find? (fun key => privateKeyToPublic key == pk) with _ | sk
    · have hstep : (signStep signerKeys st pk).transaction.auth.originCondition =
          .multi { c with fields := c.fields ++ [AuthFieldW.pubkey pk] } := by
        unfold signStep
        rw [hf]
        exact applyOriginField_multi _ c _ h
      obtain ⟨l, hl, hrel⟩ := ih _ _ hstep
      refine ⟨AuthFieldW.pubkey pk :: l, ?_, ?_⟩
      · rw [hl]
        simp
      · exact List.Forall₂.cons (by unfold signedFieldRel; rw [hf]) hrel
    · have hstep : (signStep signerKeys st pk).transaction.auth.originCondition =
          .multi { c with fields := c.fields ++
            [AuthFieldW.sig (signWithKey sk st.sigHash)] } := by
        unfold signStep
        rw [hf]
        exact applyOriginField_multi _ c _ h
      obtain ⟨l, hl, hrel⟩ := ih _ _ hstep
      refine ⟨AuthFieldW.sig (signWithKey sk st.sigHash) :: l, ?_, ?_⟩
      · rw [hl]
        simp
      · exact List.Forall₂.cons
          (by unfold signedFieldRel; rw [hf]; exact ⟨_, rfl⟩) hrel

/-- C5: for every signed multi-sig construction over a resolved ordered set of
member public keys and a subset of member private keys,
`mutatingSignAppendMultiSig` (starting from an empty field sequence) appends
the authorization fields in resolved public-key order: position i carries a
message signature exactly when a supplied private key matches public key i,
and carries that raw public key itself otherwise, preserving its position. -/
theorem claim_C5_multisig_field_append (tx : Transaction) (c : MultiSigSC)
    (publicKeys signerKeys pubs : List String) (addr : Option String)
    (tx2 : Transaction)
    (horigin : tx.auth.originCondition = .multi c)
    (hempty : c.fields = [])
    (hres : (match addr with
      | Option.some a => sortPublicKeysForAddress publicKeys c.signaturesRequired
          c.hashMode (createAddressHash160 a)
      | Option.none => .ok publicKeys) = .ok pubs)
    (h : mutatingSignAppendMultiSig tx publicKeys signerKeys addr = .ok tx2) :
    List.Forall₂ (signedFieldRel signerKeys) pubs
      tx2.auth.originCondition.fieldsOf := by
  unfold mutatingSignAppendMultiSig at h
  rw [horigin] at h
  simp only [isSingleSig, SpendingCondition.sigsRequired, SpendingCondition.hashModeOf,
    Bool.false_eq_true, if_false] at h
  rw [hres] at h
  obtain rfl : (pubs.foldl (signStep signerKeys) (newSigner tx)).transaction = tx2 := by
    simpa using h
  obtain ⟨l, hl, hrel⟩ := foldSign_fields signerKeys pubs (newSigner tx) c horigin
  rw [hl]
  simpa [SpendingCondition.fieldsOf, hempty] using hrel

/-- A concrete 2-of-3 multi-sig transfer transaction for the C5 witness. -/
def txC5 : Transaction :=
  { transactionVersion := 0, chainId := 1
    auth := .standard (.multi ⟨.p2sh, "sgn", 0, 0, [], 2⟩)
    payload := .tokenTransfer "SPR" 1 "", postConditionMode := 2
    postConditions := [] }

/-- Witness for C5: keys 1 and 3 sign, key 2 does not; in as-given order. -/
theorem claim_C5_multisig_field_append_witness :
    List.Forall₂ (signedFieldRel ["k1", "k3"])
      [privateKeyToPublic "k1", "pubX", privateKeyToPublic "k3"]
      ((([privateKeyToPublic "k1", "pubX", privateKeyToPublic "k3"].foldl
          (signStep ["k1", "k3"]) (newSigner txC5)).transaction).auth.originCondition.fieldsOf) :=
  claim_C5_multisig_field_append txC5 ⟨.p2sh, "sgn", 0, 0, [], 2⟩
    [privateKeyToPublic "k1", "pubX", privateKeyToPublic "k3"] ["k1", "k3"]
    [privateKeyToPublic "k1", "pubX", privateKeyToPublic "k3"] Option.none
    _ rfl rfl rfl rfl

/-! ## Claim C7: unsigned construction is deterministic with explicit fee/nonce -/

/-- The serialized bytes of a successful build. -/
def serializeResult : Except Err Transaction → Option String
  | .error _ => Option.none
  | .ok tx => Option.some (serializeTransaction tx)

/-- C7: for every payload and explicitly supplied fee and nonce, two runs of
the unsigned construction against arbitrary (different) collaborator
environments return the same value, make no collaborator call, and serialize
to identical bytes — unsigned construction is deterministic and
collaborator-free in this case. -/
theorem claim_C7_unsigned_deterministic :
    (∀ (env1 env2 : Env) (o : TokenTransferOptions) (signer : UnsignedSigner) (f n : Nat),
      o.fee = Option.some f → o.nonce = Option.some n →
      makeUnsignedFunaiTokenTransfer env1 o signer =
          makeUnsignedFunaiTokenTransfer env2 o signer ∧
        (makeUnsignedFunaiTokenTransfer env1 o signer).2 = [] ∧
        serializeResult (makeUnsignedFunaiTokenTransfer env1 o signer).1 =
          serializeResult (makeUnsignedFunaiTokenTransfer env2 o signer).1) ∧
    (∀ (env1 env2 : Env) (o : ContractDeployOptions) (signer : UnsignedSigner) (f n : Nat),
      o.fee = Option.some f → o.nonce = Option.some n →
      makeUnsignedContractDeploy env1 o signer = makeUnsignedContractDeploy env2 o signer ∧
        (makeUnsignedContractDeploy env1 o signer).2 = [] ∧
        serializeResult (makeUnsignedContractDeploy env1 o signer).1 =
          serializeResult (makeUnsignedContractDeploy env2 o signer).1) ∧
    (∀ (env1 env2 : Env) (o : ContractCallOptions) (signer : UnsignedSigner) (f n : Nat),
      o.fee = Option.some f → o.nonce = Option.some n →
      makeUnsignedContractCall env1 o signer = makeUnsignedContractCall env2 o signer ∧
        (makeUnsignedContractCall env1 o signer).2 = [] ∧
        serializeResult (makeUnsignedContractCall env1 o signer).1 =
          serializeResult (makeUnsignedContractCall env2 o signer).1) ∧
    (∀ (env1 env2 : Env) (o : InferOptions) (signer : UnsignedSigner) (f n : Nat),
      o.fee = Option.some f → o.nonce = Option.some n →
      makeUnsignedInfer env1 o signer = makeUnsignedInfer env2 o signer ∧
        (makeUnsignedInfer env1 o signer).2 = [] ∧
        serializeResult (makeUnsignedInfer env1 o signer).1 =
          serializeResult (makeUnsignedInfer env2 o signer).1) ∧
    (∀ (env1 env2 : Env) (o : RegisterModelOptions) (signer : UnsignedSigner) (f n : Nat),
      o.fee = Option.some f → o.nonce = Option.some n →
      makeUnsignedRegisterModel env1 o signer = makeUnsignedRegisterModel env2 o signer ∧
        (makeUnsignedRegisterModel env1 o signer).2 = [] ∧
        serializeResult (makeUnsignedRegisterModel env1 o signer).1 =
          serializeResult (makeUnsignedRegisterModel env2 o signer).1) := by
  refine ⟨?_, ?_, ?_, ?_, ?_⟩
  · intro env1 env2 o signer f n hf hn
    have hmain : makeUnsignedFunaiTokenTransfer env1 o signer =
        makeUnsignedFunaiTokenTransfer env2 o signer ∧
        (makeUnsignedFunaiTokenTransfer env1 o signer).2 = [] := by
      unfold makeUnsignedFunaiTokenTransfer
      rw [hf, hn]
      rcases createTokenTransferPayload o.recipient o.amount o.memo with e | payload
      · exact ⟨rfl, rfl⟩
      · rcases buildSpendingCondition signer ((Option.some n).getD 0)
            ((Option.some f).getD 0) with e | sc
        · exact ⟨rfl, rfl⟩
        · exact ⟨rfl, rfl⟩
    exact ⟨hmain.1, hmain.2, by rw [hmain.1]⟩
  · intro env1 env2 o signer f n hf hn
    have hmain : makeUnsignedContractDeploy env1 o signer =
        makeUnsignedContractDeploy env2 o signer ∧
        (makeUnsignedContractDeploy env1 o signer).2 = [] := by
      unfold makeUnsignedContractDeploy
      rw [hf, hn]
      rcases createSmartContractPayload o.contractName o.codeBody
          (Option.some o.clarityVersion) with e | payload
      · exact ⟨rfl, rfl⟩
      · rcases buildSpendingCondition signer ((Option.some n).getD 0)
            ((Option.some f).getD 0) with e | sc
        · exact ⟨rfl, rfl⟩
        · exact ⟨rfl, rfl⟩
    exact ⟨hmain.1, hmain.2, by rw [hmain.1]⟩
  · intro env1 env2 o signer f n hf hn
    have hmain : makeUnsignedContractCall env1 o signer =
        makeUnsignedContractCall env2 o signer ∧
        (makeUnsignedContractCall env1 o signer).2 = [] := by
      unfold makeUnsignedContractCall
      rw [hf, hn]
      rcases createContractCallPayload o.contractAddress o.contractName
          o.functionName o.functionArgs with e | payload
      · exact ⟨rfl, rfl⟩
      · rcases buildSpendingCondition signer ((Option.some n).getD 0)
            ((Option.some f).getD 0) with e | sc
        · exact ⟨rfl, rfl⟩
        · exact ⟨rfl, rfl⟩
    exact ⟨hmain.1, hmain.2, by rw [hmain.1]⟩
  · intro env1 env2 o signer f n hf hn
    have hmain : makeUnsignedInfer env1 o signer = makeUnsignedInfer env2 o signer ∧
        (makeUnsignedInfer env1 o signer).2 = [] := by
      unfold makeUnsignedInfer
      rw [hf, hn]
      rcases createInferPayload o.inferUserAddress o.amount o.userInput o.context
          nullPrincipal o.modelName with e | payload
      · exact ⟨rfl, rfl⟩
      · cases signer with
        | multi nn pks addr nonSeq => exact ⟨rfl, rfl⟩
        | single pk => exact ⟨rfl, rfl⟩
    exact ⟨hmain.1, hmain.2, by rw [hmain.1]⟩
  · intro env1 env2 o signer f n hf hn
    have hmain : makeUnsignedRegisterModel env1 o signer =
        makeUnsignedRegisterModel env2 o signer ∧
        (makeUnsignedRegisterModel env1 o signer).2 = [] := by
      unfold makeUnsignedRegisterModel
      rw [hf, hn]
      rcases createRegisterModelPayload o.modelName o.modelParams with e | payload
      · exact ⟨rfl, rfl⟩
      · cases signer with
        | multi nn pks addr nonSeq => exact ⟨rfl, rfl⟩
        | single pk => exact ⟨rfl, rfl⟩
    exact ⟨hmain.1, hmain.2, by rw [hmain.1]⟩

/-- A concrete explicit-fee explicit-nonce transfer for the C7 witness. -/
def oC7 : TokenTransferOptions :=
  { recipient := "SPRCPT", amount := 5, fee := Option.some 3, nonce := Option.some 4 }

/-- Witness for C7 at a concrete transfer against two different collaborator
environments. -/
theorem claim_C7_unsigned_deterministic_witness :
    makeUnsignedFunaiTokenTransfer ⟨fun _ => 7, fun _ => 42⟩ oC7 (.single "pk") =
        makeUnsignedFunaiTokenTransfer ⟨fun _ => 999, fun _ => 1⟩ oC7 (.single "pk") ∧
      (makeUnsignedFunaiTokenTransfer ⟨fun _ => 7, fun _ => 42⟩ oC7 (.single "pk")).2 = [] ∧
      serializeResult
          (makeUnsignedFunaiTokenTransfer ⟨fun _ => 7, fun _ => 42⟩ oC7 (.single "pk")).1 =
        serializeResult
          (makeUnsignedFunaiTokenTransfer ⟨fun _ => 999, fun _ => 1⟩ oC7 (.single "pk")).1 :=
  claim_C7_unsigned_deterministic.1 ⟨fun _ => 7, fun _ => 42⟩ ⟨fun _ => 999, fun _ => 1⟩
    oC7 (.single "pk") 3 4 rfl rfl

/-! ## Claim C8: the infer payload's node principal is always the null principal -/

/-- The node principal an infer payload stores (none for other variants). -/
def inferNodePrincipal : Payload → Option String
  | .infer _ _ _ _ np _ => Option.some np
  | _ => Option.none

theorem setFee_payload (tx : Transaction) (f : Nat) :
    (tx.setFee f).payload = tx.payload := by
  obtain ⟨v, c, auth, p, m, pcs⟩ := tx
  cases auth <;> rfl

theorem setNonce_payload (tx : Transaction) (n : Nat) :
    (tx.setNonce n).payload = tx.payload := by
  obtain ⟨v, c, auth, p, m, pcs⟩ := tx
  cases auth <;> rfl

theorem finalizeFeeNonce_payload (env : Env) (feeOpt nonceOpt : Option Nat)
    (net : FunaiNetwork) (tx : Transaction) :
    (finalizeFeeNonce env feeOpt nonceOpt net tx).1.payload = tx.payload := by
  rcases feeOpt with _ | f <;> rcases nonceOpt with _ | n <;>
    simp [finalizeFeeNonce, setFee_payload, setNonce_payload]

theorem applyOriginField_payload (tx : Transaction) (f : AuthFieldW) :
    (tx.applyOriginField f).payload = tx.payload := by
  obtain ⟨v, c, auth, p, m, pcs⟩ := tx
  cases auth <;> rfl

theorem signTransactionSingle_payload (tx : Transaction) (k : String) :
    (signTransactionSingle tx k).payload = tx.payload :=
  applyOriginField_payload tx _

theorem createInferPayload_shape (u : String) (a : Nat) (ui c np m : String)
    (p : Payload) (h : createInferPayload u a ui c np m = .ok p) :
    p = .infer u a ui c np m := by
  unfold createInferPayload at h
  split at h
  · have h2 : Payload.infer u a ui c np m = p := by simpa using h
    exact h2.symm
  · simp at h

theorem assembleAndFinalize_ok_payload (env : Env) (feeOpt nonceOpt : Option Nat)
    (net : FunaiNetwork) (sponsored : Bool) (payload : Payload) (pcm : Nat)
    (pcs : List PostConditionW) (sc : SpendingCondition) (tx : Transaction)
    (eff : List Effect)
    (h : assembleAndFinalize env feeOpt nonceOpt net sponsored payload pcm pcs sc =
      (.ok tx, eff)) : tx.payload = payload := by
  set tx0 : Transaction := {
    transactionVersion := net.transactionVersion
    chainId := net.chainId
    auth := if sponsored then createSponsoredAuth sc else createStandardAuth sc
    payload := payload
    postConditionMode := pcm
    postConditions := pcs } with htx0
  obtain rfl : (finalizeFeeNonce env feeOpt nonceOpt net tx0).1 = tx := by
    simpa [assembleAndFinalize] using congrArg Prod.fst h
  rw [finalizeFeeNonce_payload, htx0]

/-- C8: for every call to `makeUnsignedInfer` (and hence `makeInfer`, which
the API layer's `submitInferenceTask` drives), the node principal stored in
the constructed infer payload is the fixed null principal
ST000000000000000000002AMW42H — regardless of any node principal the caller
supplied in the options; the caller-supplied `nodePrincipal` never reaches
the payload. -/
theorem claim_C8_null_node_principal (env : Env) (o : InferOptions) :
    (∀ pk tx eff, makeUnsignedInfer env o (.single pk) = (.ok tx, eff) →
      inferNodePrincipal tx.payload = Option.some nullPrincipal) ∧
    (∀ sk tx eff, makeInfer env o (.single sk) = (.ok tx, eff) →
      inferNodePrincipal tx.payload = Option.some nullPrincipal) := by
  have hA : ∀ pk tx eff, makeUnsignedInfer env o (.single pk) = (.ok tx, eff) →
      inferNodePrincipal tx.payload = Option.some nullPrincipal := by
    intro pk tx eff h
    unfold makeUnsignedInfer at h
    rcases hp : createInferPayload o.inferUserAddress o.amount o.userInput o.context
        nullPrincipal o.modelName with e | payload <;> rw [hp] at h
    · simp at h
    · obtain rfl := createInferPayload_shape _ _ _ _ _ _ _ hp
      rw [assembleAndFinalize_ok_payload env o.fee o.nonce o.network o.sponsored
        _ pcmDeny [] _ tx eff h]
      rfl
  refine ⟨hA, ?_⟩
  intro sk tx eff h
  unfold makeInfer at h
  dsimp only at h
  rcases hmu : makeUnsignedInfer env o (.single (privateKeyToPublic sk))
    with ⟨res, eff0⟩
  rw [hmu] at h
  cases res with
  | error e => simp at h
  | ok tx1 =>
    simp only [Prod.mk.injEq, Except.ok.injEq] at h
    obtain ⟨rfl, -⟩ := h
    rw [signTransactionSingle_payload]
    exact hA (privateKeyToPublic sk) tx1 eff0 hmu

/-- Witness for C8: a caller-supplied node principal is ignored in favour of
the null principal. -/
theorem claim_C8_null_node_principal_witness :
    ∀ tx eff, makeUnsignedInfer ⟨fun _ => 7, fun _ => 42⟩
        { inferUserAddress := "SPUSER", amount := 100, userInput := "in",
          context := "ctx", modelName := "m",
          nodePrincipal := Option.some "SP_ATTACKER_NODE" } (.single "pk") =
        (.ok tx, eff) →
      inferNodePrincipal tx.payload = Option.some nullPrincipal := by
  intro tx eff h
  exact (claim_C8_null_node_principal ⟨fun _ => 7, fun _ => 42⟩
    { inferUserAddress := "SPUSER", amount := 100, userInput := "in",
      context := "ctx", modelName := "m",
      nodePrincipal := Option.some "SP_ATTACKER_NODE" }).1 "pk" tx eff h

/-! ## Claim C9: sponsoring an unsupported payload type with omitted fee throws -/

/-- C9: for every `sponsorTransaction` call where the caller omits the fee
and the transaction's payload type is none of token-transfer, smart-contract,
versioned-smart-contract, or contract-call (e.g. an infer-task or
register-model payload), the operation fails before any sponsor spending
condition is attached or any sponsor signature is computed (no effect at
all), leaving the transaction unsigned by the sponsor. -/
theorem claim_C9_sponsor_unsupported_type (env : Env) (o : SponsorOptions)
    (hfee : o.fee = Option.none)
    (h1 : o.transaction.payload.payloadType ≠ .tokenTransfer)
    (h2 : o.transaction.payload.payloadType ≠ .smartContract)
    (h3 : o.transaction.payload.payloadType ≠ .versionedSmartContract)
    (h4 : o.transaction.payload.payloadType ≠ .contractCall) :
    sponsorTransaction env o = (.error .sponsoredTypeNotSupported, []) := by
  unfold sponsorTransaction
  rw [hfee]
  rcases hpt : o.transaction.payload.payloadType with
    _ | _ | _ | _ | _ | _ | _ | _ | _ | _ | _
  · exact absurd hpt h1
  · exact absurd hpt h2
  · exact absurd hpt h3
  · exact absurd hpt h4
  all_goals rfl

/-- A concrete infer-payload transaction for the C9 witness. -/
def txC9 : Transaction :=
  { transactionVersion := 0, chainId := 1
    auth := .standard (createSingleSigSpendingCondition .p2pkh "pk" 0 0)
    payload := .infer "SPUSER" 100 "in" "ctx" nullPrincipal "m"
    postConditionMode := 2
    postConditions := [] }

/-- Witness for C9: sponsoring an infer transaction with the fee omitted. -/
theorem claim_C9_sponsor_unsupported_type_witness :
    sponsorTransaction ⟨fun _ => 7, fun _ => 42⟩
      { transaction := txC9, sponsorPrivateKey := "sponsorkey" } =
      (.error .sponsoredTypeNotSupported, []) :=
  claim_C9_sponsor_unsupported_type ⟨fun _ => 7, fun _ => 42⟩
    { transaction := txC9, sponsorPrivateKey := "sponsorkey" }
    rfl (by decide) (by decide) (by decide) (by decide)

/-- Witness for C10 at a concrete message and prefix. -/
theorem claim_C10_message_roundtrip_witness :
    decodeMessage (encodeMessage [104, 105] [22, 70]) [22, 70] =
      Option.some [104, 105] :=
  claim_C10_message_roundtrip [104, 105] [22, 70] (by norm_num)

end FunaiSdk
